import Mathlib

/-
  Verification of the InvestAI resilient extraction pipeline.

  This file shallowly embeds the Python modules under src/ that the claims
  concern — src/core/utils/json_utils.py, src/core/processing/priority_system.py,
  src/main.py (deduplication, batch reconciliation, single-item fallback),
  src/core/cache/smart_cache.py, src/core/agents/event_extractor.py and
  src/core/quality/quality_assurance.py — and proves or refutes the frozen
  claims about them.  Python dictionaries produced by json.loads are modelled
  by the inductive type J below; Python floats are modelled by rationals;
  exceptions are modelled by Option/Except.
-/

namespace InvestAI

/-- JSON values as produced by Python's json.loads.  Numbers keep their
    source lexeme (Python distinguishes int and float; no claim depends on
    numeric evaluation, only on lexemes and truthiness).  The lexemes
    "NaN", "Infinity" and "-Infinity" stand for the non-standard constants
    that Python's json module accepts by default.  Objects are ordered
    key/value lists; Python's dict collapses duplicate keys (last value,
    first position) — lookups below therefore take the last occurrence. -/
inductive J : Type where
  | null : J
  | bool (b : Bool) : J
  | num (lex : String) : J
  | str (s : String) : J
  | arr (xs : List J) : J
  | obj (kvs : List (String × J)) : J

mutual

/-- Structural equality test on J, modelling Python's == between values
    decoded from JSON.  (Python additionally identifies 1 == 1.0 == True
    across numeric types; the claims never rely on cross-type equality.) -/
def beqJ : J → J → Bool
  | .null, .null => true
  | .bool a, .bool b => a == b
  | .num a, .num b => a == b
  | .str a, .str b => a == b
  | .arr xs, .arr ys => beqJList xs ys
  | .obj xs, .obj ys => beqJObj xs ys
  | _, _ => false

/-- Pointwise equality of JSON arrays. -/
def beqJList : List J → List J → Bool
  | [], [] => true
  | a :: as, b :: bs => beqJ a b && beqJList as bs
  | _, _ => false

/-- Pointwise equality of JSON object member lists. -/
def beqJObj : List (String × J) → List (String × J) → Bool
  | [], [] => true
  | (k, a) :: as, (k', b) :: bs => k == k' && beqJ a b && beqJObj as bs
  | _, _ => false

end

/-- The double-quote character. -/
def cDQ : Char := Char.ofNat 34

/-- The single-quote character. -/
def cSQ : Char := Char.ofNat 39

/-- The backslash character. -/
def cBS : Char := Char.ofNat 92

/-- The backtick character. -/
def cBT : Char := Char.ofNat 96

/-- The opening-brace character. -/
def cOB : Char := Char.ofNat 123

/-- The closing-brace character. -/
def cCB : Char := Char.ofNat 125

/-- JSON whitespace accepted by Python's json module between tokens:
    space, tab, newline, carriage return. -/
def isJsonWs (c : Char) : Bool :=
  c = ' ' || c = Char.ofNat 9 || c = Char.ofNat 10 || c = Char.ofNat 13

/-- Drop leading JSON whitespace. -/
def skipWs (l : List Char) : List Char := l.dropWhile isJsonWs

/-- Value of a hexadecimal digit. -/
def hexVal (c : Char) : Option Nat :=
  if c.isDigit then some (c.toNat - 48)
  else if 97 ≤ c.toNat ∧ c.toNat ≤ 102 then some (c.toNat - 87)
  else if 65 ≤ c.toNat ∧ c.toNat ≤ 70 then some (c.toNat - 55)
  else none

/-- Body of a JSON string after the opening quote, per Python's strict
    scanner: plain characters up to the closing quote, backslash escapes
    from the fixed table, \uXXXX with four hex digits; an unescaped control
    character (code < 0x20) or an unknown escape is an error.  (Caveat:
    Python assembles surrogate pairs into single characters and tolerates
    lone surrogates inside str; Lean's Char cannot represent lone
    surrogates, and Char.ofNat maps them to NUL.  No claim exercises
    surrogates.)  Returns the decoded content and the rest after the
    closing quote. -/
def parseStrBody : Nat → List Char → Option (List Char × List Char)
  | 0, _ => none
  | _ + 1, [] => none
  | f + 1, c :: cs =>
    if c = cDQ then some ([], cs)
    else if c = cBS then
      match cs with
      | [] => none
      | e :: cs' =>
        if e = cDQ ∨ e = cBS ∨ e = '/' then
          (parseStrBody f cs').map (fun p => (e :: p.1, p.2))
        else if e = 'b' then (parseStrBody f cs').map (fun p => (Char.ofNat 8 :: p.1, p.2))
        else if e = 'f' then (parseStrBody f cs').map (fun p => (Char.ofNat 12 :: p.1, p.2))
        else if e = 'n' then (parseStrBody f cs').map (fun p => (Char.ofNat 10 :: p.1, p.2))
        else if e = 'r' then (parseStrBody f cs').map (fun p => (Char.ofNat 13 :: p.1, p.2))
        else if e = 't' then (parseStrBody f cs').map (fun p => (Char.ofNat 9 :: p.1, p.2))
        else if e = 'u' then
          match cs' with
          | h1 :: h2 :: h3 :: h4 :: cs'' =>
            match hexVal h1, hexVal h2, hexVal h3, hexVal h4 with
            | some a, some b, some c1, some d =>
              (parseStrBody f cs'').map
                (fun p => (Char.ofNat (((a * 16 + b) * 16 + c1) * 16 + d) :: p.1, p.2))
            | _, _, _, _ => none
          | _ => none
        else none
    else if c.toNat < 32 then none
    else (parseStrBody f cs).map (fun p => (c :: p.1, p.2))

/-- Maximal run of decimal digits. -/
def digitRun (l : List Char) : List Char × List Char :=
  (l.takeWhile Char.isDigit, l.dropWhile Char.isDigit)

/-- Lexes a JSON number exactly as Python's NUMBER_RE
    (-? (0 | [1-9][0-9]*) (\.[0-9]+)? ([eE][-+]?[0-9]+)?):
    leading zeros are rejected, a fraction or exponent is only consumed
    when it has at least one digit.  Returns the lexeme and the rest. -/
def parseNumLex (l : List Char) : Option (List Char × List Char) :=
  let signed := match l with
    | c :: cs => if c = '-' then some ([c], cs) else some (([] : List Char), l)
    | [] => none
  match signed with
  | none => none
  | some (sgn, l1) =>
    match l1 with
    | [] => none
    | c :: cs =>
      if c = '0' ∨ (c.isDigit ∧ c ≠ '0') then
        let intAndRest : List Char × List Char :=
          if c = '0' then ([c], cs)
          else let r := digitRun cs; (c :: r.1, r.2)
        let ipart := intAndRest.1
        let afterInt := intAndRest.2
        let fracAndRest : List Char × List Char :=
          match afterInt with
          | d :: ds =>
            if d = '.' then
              let r := digitRun ds
              if r.1 = [] then ([], afterInt) else (d :: r.1, r.2)
            else ([], afterInt)
          | [] => ([], afterInt)
        let fpart := fracAndRest.1
        let afterFrac := fracAndRest.2
        let expAndRest : List Char × List Char :=
          match afterFrac with
          | d :: ds =>
            if d = 'e' ∨ d = 'E' then
              let signAndRest : List Char × List Char :=
                match ds with
                | s :: ss => if s = '+' ∨ s = '-' then ([s], ss) else ([], ds)
                | [] => ([], ds)
              let r := digitRun signAndRest.2
              if r.1 = [] then ([], afterFrac)
              else (d :: (signAndRest.1 ++ r.1), r.2)
            else ([], afterFrac)
          | [] => ([], afterFrac)
        some (sgn ++ ipart ++ fpart ++ expAndRest.1, expAndRest.2)
      else none

mutual

/-- One JSON value starting at the head of the input (no leading
    whitespace), following the dispatch order of Python's scanner:
    string, object, array, null, true, false, number, NaN, Infinity,
    -Infinity.  Fuel-structured recursion; callers supply enough fuel
    (length + 2 suffices for every input this development evaluates). -/
def parseVal : Nat → List Char → Option (J × List Char)
  | 0, _ => none
  | _ + 1, [] => none
  | f + 1, c :: cs =>
    if c = cDQ then
      (parseStrBody (f + 1) cs).map (fun p => (J.str (String.mk p.1), p.2))
    else if c = cOB then
      match skipWs cs with
      | [] => none
      | d :: ds => if d = cCB then some (J.obj [], ds) else parseMembers f [] (d :: ds)
    else if c = '[' then
      match skipWs cs with
      | [] => none
      | d :: ds => if d = ']' then some (J.arr [], ds) else parseElems f [] (d :: ds)
    else if List.isPrefixOf ("null".data) (c :: cs) then some (J.null, (c :: cs).drop 4)
    else if List.isPrefixOf ("true".data) (c :: cs) then some (J.bool true, (c :: cs).drop 4)
    else if List.isPrefixOf ("false".data) (c :: cs) then some (J.bool false, (c :: cs).drop 5)
    else
      match parseNumLex (c :: cs) with
      | some (lex, rest) => some (J.num (String.mk lex), rest)
      | none =>
        if List.isPrefixOf ("NaN".data) (c :: cs) then
          some (J.num ("NaN"), (c :: cs).drop 3)
        else if List.isPrefixOf ("Infinity".data) (c :: cs) then
          some (J.num ("Infinity"), (c :: cs).drop 8)
        else if List.isPrefixOf ("-Infinity".data) (c :: cs) then
          some (J.num ("-Infinity"), (c :: cs).drop 9)
        else none

/-- Members of a JSON object after the opening brace (input starts at a
    key, whitespace already skipped): "key" : value, then a comma and the
    next member or the closing brace.  A trailing comma or non-string key
    is an error, as in Python. -/
def parseMembers : Nat → List (String × J) → List Char → Option (J × List Char)
  | 0, _, _ => none
  | _ + 1, _, [] => none
  | f + 1, acc, c :: cs =>
    if c = cDQ then
      match parseStrBody (f + 1) cs with
      | some (k, r1) =>
        match skipWs r1 with
        | ':' :: r2 =>
          match parseVal f (skipWs r2) with
          | some (v, r3) =>
            let acc' := acc ++ [(String.mk k, v)]
            match skipWs r3 with
            | ',' :: r4 => parseMembers f acc' (skipWs r4)
            | d :: r4 => if d = cCB then some (J.obj acc', r4) else none
            | [] => none
          | none => none
        | _ => none
      | none => none
    else none

/-- Elements of a JSON array after the opening bracket (input starts at a
    value, whitespace already skipped). -/
def parseElems : Nat → List J → List Char → Option (J × List Char)
  | 0, _, _ => none
  | _ + 1, _, [] => none
  | f + 1, acc, l =>
    match parseVal f l with
    | some (v, r1) =>
      let acc' := acc ++ [v]
      match skipWs r1 with
      | ',' :: r2 => parseElems f acc' (skipWs r2)
      | d :: r2 => if d = ']' then some (J.arr acc', r2) else none
      | [] => none
    | none => none

end

/-- Python's json.loads on a character list: skip surrounding whitespace,
    decode exactly one value, fail on any trailing non-whitespace
    ("Extra data").  none models a raised JSONDecodeError. -/
def jsonLoads (l : List Char) : Option J :=
  match parseVal (l.length + 2) (skipWs l) with
  | some (v, rest) => if skipWs rest = [] then some v else none
  | none => none

/-! ### Python string/regex machinery used by src/core/utils/json_utils.py -/

/-- ASCII whitespace matched by Python's regex \s and stripped by
    str.strip: space, tab, newline, carriage return, vertical tab, form
    feed.  (Python also matches some Unicode spaces; no input in this
    development contains them.) -/
def isPySpace (c : Char) : Bool :=
  c = ' ' || c = Char.ofNat 9 || c = Char.ofNat 10 || c = Char.ofNat 13 ||
  c = Char.ofNat 11 || c = Char.ofNat 12

/-- Python str.strip(): remove leading and trailing whitespace. -/
def pyStrip (l : List Char) : List Char :=
  ((l.dropWhile isPySpace).reverse.dropWhile isPySpace).reverse

/-- re.sub driver: scan left to right; at each position try the matcher,
    which on success returns the replacement text and the input remaining
    after the matched (nonempty) span; on failure keep one character and
    move on.  Matched spans are replaced non-overlapping and replacements
    are not rescanned, exactly as re.sub does.  Fuel-structured; callers
    pass the input length (every matcher consumes at least one character,
    so that fuel always suffices). -/
def pySub (m : List Char → Option (List Char × List Char)) : Nat → List Char → List Char
  | 0, l => l
  | _ + 1, [] => []
  | f + 1, c :: cs =>
    match m (c :: cs) with
    | some (r, rest) => r ++ pySub m f rest
    | none => c :: pySub m f cs

/-- Matcher for the pattern [backtick][backtick][backtick]json\s* (the
    fenced-code-block opener re.sub'd away by _basic_clean), replacement
    empty. -/
def mFenceJson (l : List Char) : Option (List Char × List Char) :=
  if List.isPrefixOf ("```json".data) l then
    some ([], (l.drop 7).dropWhile isPySpace)
  else none

/-- Matcher for three backticks followed by \s*, replacement empty. -/
def mFence (l : List Char) : Option (List Char × List Char) :=
  if List.isPrefixOf ("```".data) l then
    some ([], (l.drop 3).dropWhile isPySpace)
  else none

/-- Characters removed by _basic_clean's control-character re.sub:
    \x00-\x08, \x0B, \x0C, \x0E-\x1F, \x7F. -/
def isStrippedCtrl (c : Char) : Bool :=
  c.toNat ≤ 8 || c.toNat = 11 || c.toNat = 12 ||
  (14 ≤ c.toNat && c.toNat ≤ 31) || c.toNat = 127

/-- Matcher for a fixed two-character sequence, used for Python
    str.replace on the two-character escapes in _basic_clean. -/
def mPair (a b : Char) (repl : List Char) (l : List Char) : Option (List Char × List Char) :=
  match l with
  | x :: y :: rest => if x = a ∧ y = b then some (repl, rest) else none
  | _ => none

/-- JSONUtils._basic_clean (src/core/utils/json_utils.py lines 38-53):
    strip code-fence markers, strip surrounding whitespace, drop control
    characters, then replace backslash-doublequote by a bare doublequote
    and backslash-singlequote by a bare singlequote. -/
def basic_clean (l : List Char) : List Char :=
  let t1 := pySub mFenceJson l.length l
  let t2 := pySub mFence t1.length t1
  let t3 := pyStrip t2
  let t4 := t3.filter (fun c => !(isStrippedCtrl c))
  let t5 := pySub (mPair cBS cDQ [cDQ]) t4.length t4
  pySub (mPair cBS cSQ [cSQ]) t5.length t5

/-- Matcher for ([^\\])"([^"\\]*)" with replacement \1"\2" — the
    "unescaped double quote" fix, whose replacement reproduces the match
    verbatim. -/
def mQuoteFix (l : List Char) : Option (List Char × List Char) :=
  match l with
  | c :: d :: rest =>
    if c ≠ cBS ∧ d = cDQ then
      let run := rest.takeWhile (fun x => x ≠ cDQ ∧ x ≠ cBS)
      match rest.drop run.length with
      | e :: rest' =>
        if e = cDQ then some (c :: cDQ :: (run ++ [cDQ]), rest') else none
      | [] => none
    else none
  | _ => none

/-- Matcher for a singlequoted run converted to doublequotes: a single
    quote, a run free of single quotes, a single quote — replaced by the
    run wrapped in double quotes. -/
def mSingleQuotes (l : List Char) : Option (List Char × List Char) :=
  match l with
  | c :: rest =>
    if c = cSQ then
      let run := rest.takeWhile (fun x => x ≠ cSQ)
      match rest.drop run.length with
      | e :: rest' => if e = cSQ then some (cDQ :: (run ++ [cDQ]), rest') else none
      | [] => none
    else none
  | [] => none

/-- Matcher for ("\s*")\s*" with replacement \1, " (insert a comma
    between a quote pair and a following quote). -/
def mQuotePairQuote (l : List Char) : Option (List Char × List Char) :=
  match l with
  | c :: rest =>
    if c = cDQ then
      let ws1 := rest.takeWhile isPySpace
      match rest.drop ws1.length with
      | d :: r2 =>
        if d = cDQ then
          let ws2 := r2.takeWhile isPySpace
          match r2.drop ws2.length with
          | e :: r3 =>
            if e = cDQ then
              some ((cDQ :: ws1 ++ [cDQ]) ++ [',', ' ', cDQ], r3)
            else none
          | [] => none
        else none
      | [] => none
    else none
  | [] => none

/-- Matcher for (\d)\s*" with replacement \1, ". -/
def mDigitQuote (l : List Char) : Option (List Char × List Char) :=
  match l with
  | c :: rest =>
    if c.isDigit then
      let ws := rest.takeWhile isPySpace
      match rest.drop ws.length with
      | d :: r2 => if d = cDQ then some ([c, ',', ' ', cDQ], r2) else none
      | [] => none
    else none
  | [] => none

/-- Matcher for a fixed character followed by \s*" with replacement
    [that character], " — instantiated at the closing brace and the
    closing bracket. -/
def mCloserQuote (a : Char) (l : List Char) : Option (List Char × List Char) :=
  match l with
  | c :: rest =>
    if c = a then
      let ws := rest.takeWhile isPySpace
      match rest.drop ws.length with
      | d :: r2 => if d = cDQ then some ([a, ',', ' ', cDQ], r2) else none
      | [] => none
    else none
  | [] => none

/-- Python \w for the inputs exercised here: ASCII letters, digits,
    underscore.  (Python's \w is Unicode-aware; no concrete input of this
    development sends non-ASCII text through the bare-word fix.) -/
def isPyWord (c : Char) : Bool := c.isAlphanum || c = '_'

/-- The value character class [^",{}[]] of the bare-word fix. -/
def isValCls (c : Char) : Bool :=
  !(c = cDQ || c = ',' || c = cOB || c = cCB || c = '[' || c = ']')

/-- Replacement "\1": "\2" of the bare-word fix. -/
def quotedPairRepl (w v : List Char) : List Char :=
  (cDQ :: w ++ [cDQ, ':', ' ', cDQ]) ++ v ++ [cDQ]

/-- Matcher for (\w+):\s*([^",\x7b\x7d[]]+)(?=\s*[,\x7d\x5d]) with
    replacement "\1": "\2" — quote bare keys and bare values.  The
    greedy value run either ends right before a comma/closer (the usual
    case), or — when the run after \s* is empty because a comma/closer
    follows the whitespace directly — the regex backtracks and the value
    group captures the last whitespace character, exactly as re does. -/
def mBareWord (l : List Char) : Option (List Char × List Char) :=
  let w := l.takeWhile isPyWord
  if w = [] then none
  else
    match l.drop w.length with
    | ':' :: r1 =>
      let ws := r1.takeWhile isPySpace
      let r2 := r1.drop ws.length
      let run := r2.takeWhile isValCls
      if run = [] then
        match ws.getLast? with
        | some wc =>
          match r2 with
          | d :: _ =>
            if d = ',' ∨ d = cCB ∨ d = ']' then some (quotedPairRepl w [wc], r2)
            else none
          | [] => none
        | none => none
      else
        match r2.drop run.length with
        | d :: _ =>
          if d = ',' ∨ d = cCB ∨ d = ']' then
            some (quotedPairRepl w run, r2.drop run.length)
          else none
        | [] => none
    | _ => none

/-- Matcher for ,\s*([\x7d\x5d]) with replacement \1 — remove trailing
    commas before a closer. -/
def mTrailComma (l : List Char) : Option (List Char × List Char) :=
  match l with
  | c :: rest =>
    if c = ',' then
      let ws := rest.takeWhile isPySpace
      match rest.drop ws.length with
      | d :: r2 => if d = cCB ∨ d = ']' then some ([d], r2) else none
      | [] => none
    else none
  | [] => none

/-- JSONUtils._fix_common_json_issues (src/core/utils/json_utils.py lines
    55-76): the eight re.sub passes in source order — unescaped-quote fix,
    single-to-double quotes, the three/four missing-comma inserters,
    bare-word quoting, trailing-comma removal. -/
def fix_common_json_issues (l : List Char) : List Char :=
  let t1 := pySub mQuoteFix l.length l
  let t2 := pySub mSingleQuotes t1.length t1
  let t3 := pySub mQuotePairQuote t2.length t2
  let t4 := pySub mDigitQuote t3.length t3
  let t5 := pySub (mCloserQuote cCB) t4.length t4
  let t6 := pySub (mCloserQuote ']') t5.length t5
  let t7 := pySub mBareWord t6.length t6
  pySub mTrailComma t7.length t7

/-- Python str.find(ch): index of the first occurrence. -/
def pyFind (c : Char) (l : List Char) : Option Nat := l.findIdx? (· = c)

/-- Python str.rfind(ch): index of the last occurrence. -/
def pyRfind (c : Char) (l : List Char) : Option Nat :=
  (l.reverse.findIdx? (· = c)).map (fun i => l.length - 1 - i)

/-- Python slice l[s:e]. -/
def pySlice (l : List Char) (s e : Nat) : List Char := (l.drop s).take (e - s)

/-- JSONUtils._is_valid_json: json.loads succeeds. -/
def is_valid_json (l : List Char) : Bool := (jsonLoads l).isSome

/-- JSONUtils._build_fallback_json: the literal placeholder text
    '\x7b"error": "JSON解析失败", "analysis_type": "fallback"\x7d'. -/
def build_fallback_json : String :=
  "\x7b\"error\": \"JSON解析失败\", \"analysis_type\": \"fallback\"\x7d"

/-- The placeholder parsed: what json.loads makes of build_fallback_json. -/
def fallbackValue : J :=
  J.obj [("error", J.str ("JSON解析失败")), ("analysis_type", J.str ("fallback"))]

/-- JSONUtils._aggressive_json_repair (lines 78-92): cut the text down to
    the span from the first opening brace to the last closing brace (only
    when both exist — Python checks start != -1 and rfind+1 != 0), then
    substitute the fallback text if the result is still invalid. -/
def aggressive_json_repair (l : List Char) : List Char :=
  let t := match pyFind cOB l, pyRfind cCB l with
    | some s, some e => pySlice l s (e + 1)
    | _, _ => l
  if is_valid_json t then t else build_fallback_json.data

/-- JSONUtils.safe_json_parse (lines 10-36).  The Python guard
    `if not json_str or not isinstance(json_str, str)` returns the
    caller's default for the empty string (non-string arguments are
    outside this embedding of a string-typed parameter); then basic
    cleaning, common-issue fixing and a json.loads attempt; on a decode
    error, the aggressive repair and a second attempt; the final
    `except: return default` is kept for fidelity (the theorems show the
    second attempt in fact never fails).  The caller's `default` is
    modelled as a J value — Python's None is json null's decoding. -/
def safe_json_parse (s : String) (default : J) : J :=
  if s = "" then default
  else
    let cleaned := fix_common_json_issues (basic_clean s.data)
    match jsonLoads cleaned with
    | some v => v
    | none =>
      match jsonLoads (aggressive_json_repair cleaned) with
      | some v => v
      | none => default

/-! ### src/core/processing/priority_system.py -/

/-- An extracted event as a record.  Fields mirror the dict keys the
    priority and quality code reads; a missing dict key is none.  The
    timestamp is double-optional: the outer none is a missing/falsy
    `timestamp` value (Python's `if not event_time` — None, "", 0 all
    take the 1.0 branch), the inner none is a present value that
    datetime parsing rejects (the except branch), and `some (some t)` is
    a parsed moment measured in seconds (Python works with datetimes;
    differences are taken in seconds and divided by 3600). -/
structure Event where
  core_event : Option String
  impact_level : Option String
  time_horizon : Option String
  affected_assets : Option (List String)
  confidence : Option ℚ
  timestamp : Option (Option ℚ)

/-- Lookup with default, modelling Python dict.get(key, default) on the
    literal weight tables. -/
def assocGetD (m : List (String × ℚ)) (k : String) (d : ℚ) : ℚ :=
  match m.find? (fun p => p.1 = k) with
  | some p => p.2
  | none => d

/-- impact_scores table of calculate_priority_score. -/
def impact_scores : List (String × ℚ) := [("low", 10), ("medium", 50), ("high", 100)]

/-- time_scores table of calculate_priority_score. -/
def time_scores : List (String × ℚ) := [("short", 30), ("mid", 20), ("long", 10)]

/-- A rule-condition value (Python: a string or a list of strings). -/
inductive FieldVal : Type where
  | s (v : String) : FieldVal
  | l (v : List String) : FieldVal
  deriving DecidableEq

/-- One condition of a priority rule. -/
structure Cond where
  field : String
  value : FieldVal
  op : String

/-- One priority rule: a bonus score and a conjunction of conditions. -/
structure Rule where
  score : ℚ
  conditions : List Cond

/-- event.get(field) for the fields the rule conditions mention. -/
def event_get (e : Event) (f : String) : Option FieldVal :=
  if f = "impact_level" then e.impact_level.map FieldVal.s
  else if f = "time_horizon" then e.time_horizon.map FieldVal.s
  else if f = "core_event" then e.core_event.map FieldVal.s
  else if f = "affected_assets" then e.affected_assets.map FieldVal.l
  else none

/-- PrioritySystem._load_priority_rules (lines 11-60), verbatim. -/
def priority_rules : List (String × Rule) :=
  [("high_impact_short_term",
    ⟨100, [⟨"impact_level", FieldVal.s ("high"), "equals"⟩,
           ⟨"time_horizon", FieldVal.s ("short"), "equals"⟩]⟩),
   ("high_impact_mid_term",
    ⟨80, [⟨"impact_level", FieldVal.s ("high"), "equals"⟩,
          ⟨"time_horizon", FieldVal.s ("mid"), "equals"⟩]⟩),
   ("portfolio_risk_event",
    ⟨90, [⟨"affected_assets", FieldVal.l (["持仓标的"]), "contains_any"⟩,
          ⟨"impact_level", FieldVal.s ("medium"), "gte"⟩]⟩),
   ("market_crisis",
    ⟨95, [⟨"core_event", FieldVal.l (["危机", "崩盘", "暴跌", "恐慌"]), "contains_any"⟩]⟩),
   ("policy_change",
    ⟨85, [⟨"core_event", FieldVal.l (["政策", "监管", "利率", "央行"]), "contains_any"⟩]⟩),
   ("earnings_surprise",
    ⟨70, [⟨"core_event", FieldVal.l (["财报", "盈利", "营收"]), "contains_any"⟩,
          ⟨"impact_level", FieldVal.s ("medium"), "gte"⟩]⟩)]

/-- Python str.lower for the inputs exercised here (ASCII case folding;
    CJK characters are unaffected by lower() in both languages). -/
def pyLower (s : String) : String := String.mk (s.data.map Char.toLower)

/-- Contiguous-sublist test: the needle occurs as a prefix of some
    suffix of the hay (true for an empty needle, as in Python). -/
def listInfix (n : List Char) : List Char → Bool
  | [] => n.isEmpty
  | c :: t => List.isPrefixOf n (c :: t) || listInfix n t

/-- Python's substring test `needle in hay`. -/
def strIn (needle hay : String) : Bool := listInfix needle.data hay.data

/-- The ordered impact ladder used by the gte operator. -/
def impact_levels : List String := ["low", "medium", "high"]

/-- Python equality between event.get(field) (possibly None) and a rule
    value: None compares unequal to everything, and values of different
    shapes compare unequal. -/
def pyEqFV (a : Option FieldVal) (b : FieldVal) : Bool :=
  match a, b with
  | some (FieldVal.s x), FieldVal.s y => x = y
  | some (FieldVal.l x), FieldVal.l y => x = y
  | _, _ => false

/-- Truthiness of the current_holdings parameter (None or the empty list
    are falsy). -/
def holdings_truthy (h : Option (List String)) : Bool :=
  match h with
  | some (_ :: _) => true
  | _ => false

/-- One condition check of PrioritySystem._matches_rule (lines 99-133).
    equals: mismatch fails the rule.  gte: compares positions on the
    impact ladder (when a side is absent from the ladder — absent field
    or foreign value — Python raises ValueError out of the scorer; the
    embedding lets the condition fail, and every theorem below restricts
    to events whose enumerated fields are valid, where the branch is
    exact).  contains_any: keyword/substring matching on strings after
    lower(), holdings overlap for affected_assets when holdings are
    truthy, membership otherwise; a None field value matches no
    isinstance branch, so the condition is skipped — it passes. -/
def matches_cond (e : Event) (holdings : Option (List String)) (c : Cond) : Bool :=
  let ev := event_get e c.field
  if c.op = "equals" then
    pyEqFV ev c.value
  else if c.op = "gte" then
    match ev, c.value with
    | some (FieldVal.s v), FieldVal.s w =>
      match impact_levels.findIdx? (fun x => x = v), impact_levels.findIdx? (fun x => x = w) with
      | some i, some j => decide (j ≤ i)
      | _, _ => false
    | _, _ => false
  else if c.op = "contains_any" then
    match ev with
    | some (FieldVal.s s) =>
      let t := pyLower s
      match c.value with
      | FieldVal.l kws => kws.any (fun k => strIn k t)
      | FieldVal.s v => strIn v t
    | some (FieldVal.l xs) =>
      if holdings_truthy holdings ∧ c.field = "affected_assets" then
        xs.any (fun a => (holdings.getD []).contains a)
      else
        match c.value with
        | FieldVal.l vs => xs.any (fun x => vs.contains x)
        | FieldVal.s v => xs.any (fun x => strIn x v)
    | none => true
  else true

/-- PrioritySystem._matches_rule: all conditions hold. -/
def matches_rule (e : Event) (r : Rule) (holdings : Option (List String)) : Bool :=
  r.conditions.all (matches_cond e holdings)

/-- PrioritySystem._apply_priority_rules (lines 88-97): sum of the scores
    of all matching rules. -/
def apply_priority_rules (e : Event) (holdings : Option (List String)) : ℚ :=
  priority_rules.foldl (fun acc p => if matches_rule e p.2 holdings then acc + p.2.score else acc) 0

/-- PrioritySystem._calculate_time_penalty (lines 135-163): 1.0 for a
    missing/falsy timestamp; for a parsed moment, tiers on the elapsed
    hours (now - t)/3600: ≤ 1 → 1.0, ≤ 24 → 0.8, ≤ 72 → 0.5, else 0.3;
    0.7 when parsing raised. -/
def calculate_time_penalty (now : ℚ) (e : Event) : ℚ :=
  match e.timestamp with
  | none => 1
  | some none => 7 / 10
  | some (some t) =>
    let diff := (now - t) / 3600
    if diff ≤ 1 then 1
    else if diff ≤ 24 then 4 / 5
    else if diff ≤ 72 then 1 / 2
    else 3 / 10

/-- The running value of base_score in calculate_priority_score just
    before the final clamp (lines 64-84): 0, plus the impact weight
    (unknown or missing level falls back to the "low" key and then the
    dict-get default 10), plus the horizon weight (missing falls back to
    the "mid" key, a foreign value to the dict-get default 15), times
    confidence (default 0.5), plus the rule bonus, times the time
    penalty. -/
def score_unclamped (now : ℚ) (e : Event) (holdings : Option (List String)) : ℚ :=
  let base0 : ℚ := 0
  let base1 := base0 + assocGetD impact_scores (e.impact_level.getD ("low")) 10
  let base2 := base1 + assocGetD time_scores (e.time_horizon.getD ("mid")) 15
  let base3 := base2 * e.confidence.getD (1 / 2)
  let base4 := base3 + apply_priority_rules e holdings
  base4 * calculate_time_penalty now e

/-- PrioritySystem.calculate_priority_score (lines 62-86): the running
    score clamped by `return max(0, min(100, base_score))`. -/
def calculate_priority_score (now : ℚ) (e : Event) (holdings : Option (List String)) : ℚ :=
  max 0 (min 100 (score_unclamped now e holdings))

/-- Modelled from the claim: the impact-weight table {low:10, medium:50,
    high:100} (the claim formula indexes it only at the three listed
    levels). -/
def impact_weight_spec (s : String) : ℚ :=
  if s = "low" then 10 else if s = "medium" then 50 else if s = "high" then 100 else 0

/-- Modelled from the claim: the time-horizon weight table {short:30,
    mid:20, long:10}. -/
def time_weight_spec (s : String) : ℚ :=
  if s = "short" then 30 else if s = "mid" then 20 else if s = "long" then 10 else 0

/-- Modelled from the claim: decay is 1.0 with no timestamp, 0.7 for an
    unparseable one, else 1.0 / 0.8 / 0.5 / 0.3 as the elapsed hours are
    ≤ 1 / ≤ 24 / ≤ 72 / more. -/
def time_decay_spec (now : ℚ) (ts : Option (Option ℚ)) : ℚ :=
  match ts with
  | none => 1
  | some none => 7 / 10
  | some (some t) =>
    let hours := (now - t) / 3600
    if hours ≤ 1 then 1
    else if hours ≤ 24 then 4 / 5
    else if hours ≤ 72 then 1 / 2
    else 3 / 10

/-! ### src/core/quality/quality_assurance.py -/

/-- One validation error of the quality gate.  Python appends message
    strings ("缺少字段: f", "无效的f: v", "内容验证失败"); only their
    presence and position matter to the claims, so they are modelled as
    tagged values. -/
inductive VError : Type where
  | missing (f : String) : VError
  | invalid (f : String) : VError
  | contentFail : VError
  deriving DecidableEq

/-- required_fields of the event_extraction validation rules. -/
def event_required_fields : List String := ["core_event", "impact_level", "time_horizon"]

/-- Python `field in event` on an Event record. -/
def has_field (e : Event) (f : String) : Bool :=
  if f = "core_event" then e.core_event.isSome
  else if f = "impact_level" then e.impact_level.isSome
  else if f = "time_horizon" then e.time_horizon.isSome
  else if f = "affected_assets" then e.affected_assets.isSome
  else if f = "confidence" then e.confidence.isSome
  else false

/-- The field_validators of the event_extraction rules, applied in dict
    order (impact_level, time_horizon, confidence) and only to fields
    present in the event, exactly as `if field in event and not
    validator(event[field])`. -/
def field_validator_errors (e : Event) : List VError :=
  (match e.impact_level with
   | some v =>
     if v = "low" ∨ v = "medium" ∨ v = "high" then [] else [VError.invalid ("impact_level")]
   | none => []) ++
  (match e.time_horizon with
   | some v =>
     if v = "short" ∨ v = "mid" ∨ v = "long" then [] else [VError.invalid ("time_horizon")]
   | none => []) ++
  (match e.confidence with
   | some c => if 0 ≤ c ∧ c ≤ 1 then [] else [VError.invalid ("confidence")]
   | none => [])

/-- The two content_validators of the event_extraction rules:
    len(event.get('core_event', '')) > 5 and < 500 — strict inequalities
    in the source. -/
def content_validator_errors (e : Event) : List VError :=
  (if 5 < (e.core_event.getD ("")).length then [] else [VError.contentFail]) ++
  (if (e.core_event.getD ("")).length < 500 then [] else [VError.contentFail])

/-- QualityAssurance._validate_single_event (lines 115-135) for the
    event_extraction rules: missing required fields, then field
    validators, then content validators. -/
def validate_single_event (e : Event) : List VError :=
  (event_required_fields.filterMap
    (fun f => if has_field e f then none else some (VError.missing f))) ++
  field_validator_errors e ++ content_validator_errors e

/-- QualityAssurance.validate_event_extraction (lines 51-67): per-event
    errors tagged with the 1-based position, a validity ratio of
    valid_count/len (0 for an empty collection), is_valid when the ratio
    reaches 0.8.  (The metric recording is a log-only side effect.) -/
def validate_event_extraction (events : List Event) : Bool × List (Nat × List VError) :=
  let errors := events.enum.filterMap
    (fun p => let es := validate_single_event p.2
              if es = [] then none else some (p.1 + 1, es))
  let valid_count := (events.filter (fun e => validate_single_event e = [])).length
  let validFrac : ℚ := if events.length = 0 then 0 else (valid_count : ℚ) / (events.length : ℚ)
  (validFrac ≥ 4 / 5, errors)

/-! ### src/core/cache/smart_cache.py -/

/-- The observable state of a SmartCache: the diskcache store (a stored
    Python value may itself be None — the inner Option — and diskcache's
    get returns None both for an absent key and for a stored None) plus
    the hit/miss/set counters.  The claims quantify over calls within
    the TTL window, so entry expiry never fires in the modelled
    interval; the ttl argument is threaded for fidelity but does not
    affect the store. -/
structure CacheState (β : Type) where
  store : List (String × Option β)
  hits : Nat
  misses : Nat
  sets : Nat

/-- The value diskcache.Cache.get returns for a key: the stored value,
    or None when the key is absent (indistinguishable from a stored
    None). -/
def cache_lookup {β : Type} (st : CacheState β) (key : String) : Option β :=
  match st.store.find? (fun p => p.1 = key) with
  | some p => p.2
  | none => none

/-- SmartCache.get (lines 33-41): count a hit exactly when the returned
    value `is not None`, a miss otherwise. -/
def cache_get {β : Type} (st : CacheState β) (key : String) : Option β × CacheState β :=
  match cache_lookup st key with
  | some v => (some v, { st with hits := st.hits + 1 })
  | none => (none, { st with misses := st.misses + 1 })

/-- SmartCache.set (lines 43-48): store the value under the key (last
    write wins) and count the set. -/
def cache_set {β : Type} (st : CacheState β) (key : String) (v : Option β) (_ttl : Nat) :
    CacheState β :=
  { st with
    store :=
      if st.store.any (fun p => p.1 = key) then
        st.store.map (fun p => if p.1 = key then (key, v) else p)
      else st.store ++ [(key, v)],
    sets := st.sets + 1 }

/-- Result of one get_or_compute call: the returned value, the new cache
    state, and how many times compute_func ran during the call. -/
structure GocOut (β : Type) where
  value : Option β
  state : CacheState β
  calls : Nat

/-- SmartCache.get_or_compute (lines 50-58): return the cached value if
    it `is not None`; otherwise run compute_func once, store its result,
    and return it.  compute_func returns an arbitrary Python value,
    possibly None — hence Option β. -/
def get_or_compute {β : Type} (st : CacheState β) (key : String) (f : Unit → Option β)
    (ttl : Nat) : GocOut β :=
  match cache_get st key with
  | (some v, st1) => ⟨some v, st1, 0⟩
  | (none, st1) =>
    let r := f ()
    ⟨r, cache_set st1 key r ttl, 1⟩

/-! ### src/core/agents/event_extractor.py and the single-item fallback -/

/-- A raw news item as loaded by the ingestion source — the dict keys
    the extraction pipeline reads.  A missing key is none. -/
structure NewsItem where
  id : Option String
  title : Option String
  content : Option String
  source : Option String
  timestamp : Option String
  category : Option String
  source_file : Option String
  source_line : Option Int

/-- EventExtractionAgent._clean_llm_response (lines 109-121): strip the
    code fences, strip whitespace, and cut to the first-brace/last-brace
    span when both braces occur (otherwise return the text unchanged). -/
def clean_llm_response (l : List Char) : List Char :=
  let t1 := pySub mFenceJson l.length l
  let t2 := pySub mFence t1.length t1
  let t3 := pyStrip t2
  match pyFind cOB t3, pyRfind cCB t3 with
  | some s, some e => pySlice t3 s (e + 1)
  | _, _ => t3

/-- Python's `needle in container` on a decoded JSON value: key test on
    a dict, membership (via ==) on a list, substring test on a str; on
    int/float/bool/None it raises TypeError — the none result. -/
def pyIn (needle : String) (v : J) : Option Bool :=
  match v with
  | J.obj kvs => some (kvs.any (fun p => p.1 = needle))
  | J.arr xs => some (xs.any (fun x => beqJ x (J.str needle)))
  | J.str s => some (strIn needle s)
  | _ => none

/-- Python's all(field in v for field in fields): short-circuits on the
    first False; a TypeError (none) propagates. -/
def pyAllIn : List String → J → Option Bool
  | [], _ => some true
  | f :: fs, v =>
    match pyIn f v with
    | none => none
    | some false => some false
    | some true => pyAllIn fs v

/-- required_output_fields of EventExtractionAgent (line 17) — note the
    plural "core_events", exactly as in the source. -/
def required_output_fields : List String :=
  ["core_events", "impact_level", "time_horizon", "affected_assets"]

/-- EventExtractionAgent._parse_single_response (lines 98-107): clean,
    json.loads, then check the required fields with `in`; none models
    any raised exception (decode error, TypeError from `in`, or the
    explicit ValueError on a missing field) — all are caught by the
    caller. -/
def parse_single_response (resp : List Char) : Option J :=
  match jsonLoads (clean_llm_response resp) with
  | none => none
  | some v =>
    match pyAllIn required_output_fields v with
    | some true => some v
    | _ => none

/-- Truthiness of a parsed number: zero is falsy.  The mantissa (the
    lexeme before any exponent) decides; NaN and the infinities are
    truthy. -/
def numTruthy (lex : String) : Bool :=
  if lex = "NaN" ∨ lex = "Infinity" ∨ lex = "-Infinity" then true
  else (lex.data.takeWhile (fun c => c ≠ 'e' ∧ c ≠ 'E')).any (fun c => c.isDigit ∧ c ≠ '0')

/-- Python truthiness of a decoded JSON value. -/
def pyTruthy : J → Bool
  | J.null => false
  | J.bool b => b
  | J.num lex => numTruthy lex
  | J.str s => !s.data.isEmpty
  | J.arr xs => !xs.isEmpty
  | J.obj kvs => !kvs.isEmpty

/-- high_impact_words of EventExtractionAgent._create_default_event. -/
def high_impact_words : List String :=
  ["利率", "降息", "加息", "通胀", "衰退", "危机", "刺激", "财报", "盈利"]

/-- low_impact_words of EventExtractionAgent._create_default_event. -/
def low_impact_words : List String := ["观点", "评论", "分析", "预计", "可能"]

/-- EventExtractionAgent._create_default_event (lines 123-147): keyword
    guess of the impact level over (title + content).lower(), core_event
    from the title or the first 100 characters of the content,
    confidence 0.5. -/
def extractor_default_event (news : NewsItem) : J :=
  let title := news.title.getD ("")
  let content := news.content.getD ("")
  let combined := pyLower (title ++ content)
  let impact :=
    if high_impact_words.any (fun w => strIn w combined) then "high"
    else if low_impact_words.any (fun w => strIn w combined) then "low"
    else "medium"
  let core := if title ≠ "" then title else String.mk (content.data.take 100)
  J.obj [("core_event", J.str core), ("impact_level", J.str impact),
         ("time_horizon", J.str ("short")), ("affected_assets", J.arr []),
         ("investment_implication", J.str ("自动分析结果")), ("confidence", J.num ("0.5"))]

/-- EventExtractionAgent.extract_single_event (lines 66-96).  The oracle
    call (llm_call) is outside the try block: a transport error
    propagates (Except.error); a parse/validation failure inside the try
    degrades to the agent's default event. -/
def extract_single_event (llm : NewsItem → Except Unit String) (news : NewsItem) :
    Except Unit J :=
  match llm news with
  | Except.error e => Except.error e
  | Except.ok resp =>
    match parse_single_response resp.data with
    | some v => Except.ok v
    | none => Except.ok (extractor_default_event news)

/-- EventExtractionAgent._process_single (lines 55-64), reached by
    process([news]) since the list has length 1: wraps the (truthy)
    event in a singleton list. -/
def process_single (llm : NewsItem → Except Unit String) (news : NewsItem) :
    Except Unit (List J) :=
  (extract_single_event llm news).map (fun ev => if pyTruthy ev then [ev] else [])

/-- Option String to the JSON value Python would store (None ↦ null). -/
def optStrJ : Option String → J
  | some s => J.str s
  | none => J.null

/-- Option Int to the JSON value Python would store. -/
def optIntJ : Option Int → J
  | some i => J.num (toString i)
  | none => J.null

/-- OptimizedInvestmentSystem._create_default_event (src/main.py lines
    387-398): the deterministic low-confidence placeholder event
    (confidence 0.3) built when even single-item extraction raised. -/
def main_default_event (news : NewsItem) : J :=
  J.obj [("core_event", J.str (String.mk ((news.content.getD ("")).data.take 100))),
         ("impact_level", J.str ("low")), ("time_horizon", J.str ("short")),
         ("affected_assets", J.arr []),
         ("investment_implication", J.str ("需要进一步分析")),
         ("confidence", J.num ("0.3")),
         ("source_file", optStrJ news.source_file),
         ("source_line", optIntJ news.source_line)]

/-- OptimizedInvestmentSystem._fallback_single_processing (src/main.py
    lines 364-385): for each item of the failed batch, run the
    single-item extractor and extend the result list with its events; if
    it raised, append the deterministic placeholder instead. -/
def fallback_single_processing (llm : NewsItem → Except Unit String) :
    List NewsItem → List J
  | [] => []
  | n :: ns =>
    (match process_single llm n with
     | Except.ok evs => evs
     | Except.error _ => [main_default_event n]) ++ fallback_single_processing llm ns

/-- The per-item outcome of the fallback path: the extracted (or
    agent-default) event, or the main placeholder on a raised call. -/
def single_event_outcome (llm : NewsItem → Except Unit String) (n : NewsItem) : J :=
  match extract_single_event llm n with
  | Except.ok ev => ev
  | Except.error _ => main_default_event n

/-! ### src/main.py — deduplicating loader -/

/-- Truthiness of a declared id (Python: `if news_id` — a missing key or
    an empty string is falsy). -/
def id_truthy (o : Option String) : Bool :=
  match o with
  | some s => s ≠ ""
  | none => false

/-- Result of the loading loop: the kept items, the scan count
    (news_count) and the duplicate count. -/
structure DedupOut where
  kept : List NewsItem
  scanned : Nat
  dups : Nat

/-- The loop body of OptimizedInvestmentSystem._load_news_batch
    (src/main.py lines 134-177), with the processed-ids and
    processed-hashes sets as ordered lists and the content hash supplied
    as a function parameter (the source uses md5 hex digests; the claims
    speak of fingerprint equality, so any deterministic hash function is
    quantified over).  An item whose truthy id was seen, or whose
    content hash was seen, counts as a duplicate; otherwise it is kept,
    its truthy id and its hash are recorded, and the loop breaks as soon
    as the kept count reaches the requested size. -/
def load_news_batch_loop (hashFn : String → String) (size : Nat) :
    List String → List String → List NewsItem → Nat → Nat → List NewsItem → DedupOut
  | _, _, kept, scanned, dups, [] => ⟨kept, scanned, dups⟩
  | ids, hashes, kept, scanned, dups, n :: ns =>
    let h := hashFn (n.content.getD (""))
    if id_truthy n.id && ids.contains (n.id.getD ("")) then
      load_news_batch_loop hashFn size ids hashes kept (scanned + 1) (dups + 1) ns
    else if hashes.contains h then
      load_news_batch_loop hashFn size ids hashes kept (scanned + 1) (dups + 1) ns
    else
      let kept' := kept ++ [n]
      let ids' := if id_truthy n.id then ids ++ [n.id.getD ("")] else ids
      let hashes' := hashes ++ [h]
      if size ≤ kept'.length then ⟨kept', scanned + 1, dups⟩
      else load_news_batch_loop hashFn size ids' hashes' kept' (scanned + 1) dups ns

/-- OptimizedInvestmentSystem._load_news_batch with empty initial
    bookkeeping (the cached-result early return is the use_cache=False
    path; it replays a previous result and adds nothing to the claims). -/
def load_news_batch (hashFn : String → String) (size : Nat) (input : List NewsItem) :
    DedupOut :=
  load_news_batch_loop hashFn size [] [] [] 0 0 input

/-- Modelled from the claim: a and b carry the same identity — equal
    non-empty declared ids, or equal content fingerprints. -/
def pair_dup (hashFn : String → String) (a b : NewsItem) : Bool :=
  (id_truthy a.id && id_truthy b.id && a.id.getD ("") == b.id.getD ("")) ||
  (hashFn (a.content.getD ("")) == hashFn (b.content.getD ("")))

/-- Modelled from the claim: n duplicates some earlier kept item. -/
def dup_of (hashFn : String → String) (n : NewsItem) (kept : List NewsItem) : Bool :=
  kept.any (fun k => pair_dup hashFn k n)

/-- Modelled from the claim: the first-occurrence-wins duplicate filter
    over the whole input, with no early termination; kept accumulates
    the items retained so far. -/
def dedup_filter_aux (hashFn : String → String) : List NewsItem → List NewsItem → List NewsItem
  | _, [] => []
  | kept, n :: ns =>
    if dup_of hashFn n kept then dedup_filter_aux hashFn kept ns
    else n :: dedup_filter_aux hashFn (kept ++ [n]) ns

/-- The duplicate filter started empty. -/
def dedup_filter (hashFn : String → String) (l : List NewsItem) : List NewsItem :=
  dedup_filter_aux hashFn [] l

/-! ### src/main.py — batch response reconciliation -/

/-- Python dict lookup on a decoded JSON object: duplicate keys were
    collapsed by dict construction to the last value. -/
def pyDictGet (kvs : List (String × J)) (k : String) : Option J :=
  (kvs.reverse.find? (fun p => p.1 = k)).map (fun p => p.2)

/-- Python dict assignment d[k] = v on a decoded object: overwrite in
    place when the key exists, append otherwise. -/
def pyDictSet (kvs : List (String × J)) (k : String) (v : J) : List (String × J) :=
  if kvs.any (fun p => p.1 = k) then
    kvs.map (fun p => if p.1 = k then (k, v) else p)
  else kvs ++ [(k, v)]

/-- Whether a number lexeme came from a JSON integer (Python json parses
    it to int exactly when it has no fraction and no exponent; NaN and
    the infinities are floats). -/
def isIntLex (lex : String) : Bool :=
  !lex.data.isEmpty && lex.data.all (fun c => c.isDigit || c = '-')

/-- Digits to a natural number. -/
def digitsToNat (l : List Char) : Nat := l.foldl (fun a c => a * 10 + (c.toNat - 48)) 0

/-- Integer value of an integer lexeme. -/
def lexToInt (lex : String) : Int :=
  match lex.data with
  | '-' :: ds => -(Int.ofNat (digitsToNat ds))
  | ds => Int.ofNat (digitsToNat ds)

/-- Rational value of a float lexeme (sign, integer digits, optional
    fraction, optional exponent).  The NaN/Infinity lexemes evaluate to
    0 here, which makes the range test below false — the same skip
    outcome Python reaches through IEEE comparisons on nan/inf. -/
def lexToRat (lex : String) : ℚ :=
  let signAndRest : ℚ × List Char :=
    match lex.data with
    | c :: cs => if c = '-' then (-1, cs) else (1, lex.data)
    | [] => (1, [])
  let l1 := signAndRest.2
  let ip := l1.takeWhile Char.isDigit
  let r1 := l1.dropWhile Char.isDigit
  let fracAndRest : List Char × List Char :=
    match r1 with
    | c :: cs => if c = '.' then (cs.takeWhile Char.isDigit, cs.dropWhile Char.isDigit) else ([], r1)
    | [] => ([], r1)
  let fp := fracAndRest.1
  let ex : Int :=
    match fracAndRest.2 with
    | c :: cs =>
      if c = 'e' ∨ c = 'E' then
        match cs with
        | s :: ss =>
          if s = '-' then -(Int.ofNat (digitsToNat (ss.takeWhile Char.isDigit)))
          else if s = '+' then Int.ofNat (digitsToNat (ss.takeWhile Char.isDigit))
          else Int.ofNat (digitsToNat (cs.takeWhile Char.isDigit))
        | [] => 0
      else 0
    | [] => 0
  signAndRest.1 * (digitsToNat (ip ++ fp) : ℚ) / ((10 : ℚ) ^ fp.length) * ((10 : ℚ) ^ ex)

/-- The four provenance assignments of _parse_batch_response (src/main.py
    lines 352-355) on a matched event dict. -/
def set_provenance (kvs : List (String × J)) (news : NewsItem) : List (String × J) :=
  let k1 := pyDictSet kvs ("source_file") (optStrJ news.source_file)
  let k2 := pyDictSet k1 ("source_line") (optIntJ news.source_line)
  let k3 := pyDictSet k2 ("original_timestamp") (optStrJ news.timestamp)
  pyDictSet k3 ("original_category") (optStrJ news.category)

/-- The per-element body of the annotation loop (src/main.py lines
    348-356): news_index := event.get('news_index', 1) - 1; when 0 ≤
    news_index < len(original_news) the event is annotated with the
    provenance of that item, otherwise left untouched.  Python dynamics
    at foreign value shapes: a non-dict element has no .get
    (AttributeError); a str/list/dict/None index value cannot be
    decremented (TypeError); a bool is an int (True-1 = 0); a float
    index passes the comparisons but raises on list indexing exactly
    when it is in range.  Each raise aborts _parse_batch_response
    (Except.error), whose caller then falls back to single-item
    processing. -/
def annotate_one (news : List NewsItem) (ev : J) : Except Unit J :=
  match ev with
  | J.obj kvs =>
    (match (pyDictGet kvs ("news_index")).getD (J.num ("1")) with
     | J.num lex =>
       if isIntLex lex then
         let idx : Int := lexToInt lex - 1
         if 0 ≤ idx ∧ idx < news.length then
           match news.get? idx.toNat with
           | some item => Except.ok (J.obj (set_provenance kvs item))
           | none => Except.error ()
         else Except.ok ev
       else
         let q := lexToRat lex - 1
         if 0 ≤ q ∧ q < (news.length : ℚ) then Except.error () else Except.ok ev
     | J.bool b =>
       let idx : Int := (if b then 1 else 0) - 1
       if 0 ≤ idx ∧ idx < news.length then
         match news.get? idx.toNat with
         | some item => Except.ok (J.obj (set_provenance kvs item))
         | none => Except.error ()
       else Except.ok ev
     | _ => Except.error ())
  | _ => Except.error ()

/-- The annotation loop over all decoded batch events; an exception in
    any iteration aborts the whole parse. -/
def annotate_batch_events (evs : List J) (news : List NewsItem) : Except Unit (List J) :=
  evs.mapM (annotate_one news)

/-- The cleaning stage of OptimizedInvestmentSystem._parse_batch_response
    (src/main.py lines 326-329): strip the code fences and surrounding
    whitespace from the raw oracle response. -/
def clean_batch_response (response : String) : List Char :=
  let t1 := pySub mFenceJson response.data.length response.data
  let t2 := pySub mFence t1.length t1
  pyStrip t2

/-- The rest of _parse_batch_response (src/main.py lines 331-362) after
    cleaning: require a first-brace/last-brace span, json.loads it, read
    batch_events with default [], log (only) a count mismatch, annotate
    each element by its declared news_index, and return all elements.
    Except.error models the re-raise that triggers per-item fallback in
    _process_news_batch.  Foreign batch_events shapes: an empty str or
    dict iterates to nothing and is returned (contributing no events); a
    nonempty one raises on the first element's .get; null/num/bool fail
    iteration. -/
def parse_batch_response_body (cleaned : List Char) (original_news : List NewsItem) :
    Except Unit (List J) :=
  match pyFind cOB cleaned, pyRfind cCB cleaned with
  | some s, some e =>
    (match jsonLoads (pySlice cleaned s (e + 1)) with
     | some (J.obj kvs) =>
       (match (pyDictGet kvs ("batch_events")).getD (J.arr []) with
        | J.arr evs => annotate_batch_events evs original_news
        | J.str s2 => if s2 = "" then Except.ok [] else Except.error ()
        | J.obj [] => Except.ok []
        | _ => Except.error ())
     | some _ => Except.error ()
     | none => Except.error ())
  | _, _ => Except.error ()

/-- OptimizedInvestmentSystem._parse_batch_response as called by
    _process_news_batch: cleaning followed by the span/parse/annotate
    dispatch above. -/
def parse_batch_response (response : String) (original_news : List NewsItem) :
    Except Unit (List J) :=
  parse_batch_response_body (clean_batch_response response) original_news

/-- The per-element annotation as a total function — what annotate_one
    returns on sane elements: matched by the declared index when it is
    in range, untouched otherwise. -/
def annotate_ok (news : List NewsItem) (ev : J) : J :=
  match ev with
  | J.obj kvs =>
    (match (pyDictGet kvs ("news_index")).getD (J.num ("1")) with
     | J.num lex =>
       if isIntLex lex then
         let idx : Int := lexToInt lex - 1
         if 0 ≤ idx ∧ idx < news.length then
           match news.get? idx.toNat with
           | some item => J.obj (set_provenance kvs item)
           | none => ev
         else ev
       else ev
     | _ => ev)
  | _ => ev

/-- A batch element that exercises no raising corner of the annotation
    loop: a dict whose news_index, if present, is a JSON integer. -/
def sane_event (ev : J) : Bool :=
  match ev with
  | J.obj kvs =>
    (match pyDictGet kvs ("news_index") with
     | none => true
     | some (J.num lex) => isIntLex lex
     | some _ => false)
  | _ => false

/-! ### Concrete inputs used by the witnesses and counterexamples -/

/-- The id-list part of the loop bookkeeping, read off the kept items:
    the truthy declared ids in kept order. -/
def kept_ids (kept : List NewsItem) : List String :=
  kept.filterMap (fun k => if id_truthy k.id then some (k.id.getD ("")) else none)

/-- The hash-set part of the loop bookkeeping, read off the kept items. -/
def kept_hashes (hashFn : String → String) (kept : List NewsItem) : List String :=
  kept.map (fun k => hashFn (k.content.getD ("")))

/-- A well-formed oracle response left untouched by the repair stages. -/
def jsonOkInput : String := "\x7b\"a\": 1\x7d"

/-- A well-formed oracle response containing an escaped quote —
    in Python source, the text is the valid JSON document
    \x7b"a": "\""\x7d. -/
def jsonEscInput : String := "\x7b\"a\": \"\\\"\"\x7d"

/-- An event matching high_impact_short_term, market_crisis and
    policy_change with confidence 0.9. -/
def eventSat09 : Event :=
  ⟨some ("危机政策"), some ("high"), some ("short"), some [], some (9 / 10), none⟩

/-- The same event with confidence 0.2. -/
def eventSat02 : Event :=
  ⟨some ("危机政策"), some ("high"), some ("short"), some [], some (1 / 5), none⟩

/-- A quiet event used by the priority witnesses. -/
def eventQuiet (c : ℚ) : Event :=
  ⟨some ("abc"), some ("low"), some ("long"), some [], some c, none⟩

/-- A valid event used by the C3 witness. -/
def eventC3w : Event :=
  ⟨some ("abc"), some ("high"), some ("short"), some [], some (3 / 4), none⟩

/-- An otherwise-valid event whose core_event has exactly 5 characters. -/
def eventCore5 : Event :=
  ⟨some ("abcde"), some ("high"), some ("short"), some [], some (1 / 2), none⟩

/-- A 500-character string. -/
def str500 : String := String.mk (List.replicate 500 'a')

/-- An otherwise-valid event whose core_event has exactly 500 characters. -/
def eventCore500 : Event :=
  ⟨some str500, some ("high"), some ("short"), some [], some (1 / 2), none⟩

/-- An otherwise-valid event whose core_event has 6 characters. -/
def eventCore6 : Event :=
  ⟨some ("abcdef"), some ("high"), some ("short"), some [], some (1 / 2), none⟩

/-- News items for the deduplication examples: newsB repeats newsA's
    content under a fresh id, newsC repeats newsA's id with fresh
    content, newsD is fresh in both. -/
def newsA : NewsItem := ⟨some ("1"), none, some ("aaa"), none, none, none, none, none⟩

/-- See newsA. -/
def newsB : NewsItem := ⟨some ("2"), none, some ("aaa"), none, none, none, none, none⟩

/-- See newsA. -/
def newsC : NewsItem := ⟨some ("1"), none, some ("ccc"), none, none, none, none, none⟩

/-- See newsA. -/
def newsD : NewsItem := ⟨some ("4"), none, some ("ddd"), none, none, none, none, none⟩

/-- The four-item input of the C4 witness. -/
def newsListC4 : List NewsItem := [newsA, newsB, newsC, newsD]

/-- A batch-oracle response declaring two events for what will be a
    single-item batch: \x7b"batch_events": [\x7b"news_index": 1\x7d,
    \x7b"news_index": 2\x7d]\x7d. -/
def batchResp2 : String :=
  "\x7b\"batch_events\": [\x7b\"news_index\": 1\x7d, \x7b\"news_index\": 2\x7d]\x7d"

/-- The empty Unit-valued cache. -/
def st0Unit : CacheState Unit := ⟨[], 0, 0, 0⟩

/-- The empty Nat-valued cache. -/
def st0Nat : CacheState Nat := ⟨[], 0, 0, 0⟩

/-- A compute function that returns Python None. -/
def noneCompute : Unit → Option Unit := fun _ => none

/-! ## Theorems -/

/-- json.loads accepts the fallback text and yields the placeholder
    object. -/
theorem jsonLoads_fallback : jsonLoads (build_fallback_json.data) = some fallbackValue := by
  rfl

/-- A validity-checked text, with the fallback as the alternative,
    always parses. -/
theorem valid_or_fallback (u : List Char) :
    (jsonLoads (if is_valid_json u then u else build_fallback_json.data)).isSome = true := by
  cases hv : is_valid_json u with
  | false => simp [hv, jsonLoads_fallback]
  | true =>
    simp only [hv, if_pos]
    unfold is_valid_json at hv
    exact hv

/-- The aggressive repair always returns parseable text: either the
    brace span already parsed, or the fallback text was substituted. -/
theorem aggressive_repair_isSome (t : List Char) :
    (jsonLoads (aggressive_json_repair t)).isSome = true :=
  valid_or_fallback _

/-- Claim C1: for every input string, safe_json_parse raises nothing
    (it is a total function of this embedding, every Python exception
    being caught inside it) and its result admits no third outcome: for
    the empty string it is the caller's designated default, and for any
    other input it is a successfully parsed object — of the cleaned
    input or of its repaired brace span, the latter covering the
    designated placeholder fallbackValue, which is the parse of the
    substituted fallback text.  The second conjunct shows the repair
    stage can never fall through to the final except branch. -/
theorem C1_safe_json_parse_never_third_outcome :
    ∀ (s : String) (d : J),
      ((s = "" ∧ safe_json_parse s d = d) ∨
        jsonLoads (fix_common_json_issues (basic_clean s.data)) = some (safe_json_parse s d) ∨
        jsonLoads (aggressive_json_repair (fix_common_json_issues (basic_clean s.data))) =
          some (safe_json_parse s d)) ∧
      (∀ t : List Char, (jsonLoads (aggressive_json_repair t)).isSome = true) := by
  intro s d
  refine ⟨?_, fun t => aggressive_repair_isSome t⟩
  by_cases hs : s = ""
  · exact Or.inl ⟨hs, by simp [safe_json_parse, hs]⟩
  · cases h1 : jsonLoads (fix_common_json_issues (basic_clean s.data)) with
    | some v => exact Or.inr (Or.inl (by simp [safe_json_parse, hs, h1]))
    | none =>
      obtain ⟨w, hw⟩ := Option.isSome_iff_exists.mp
        (aggressive_repair_isSome (fix_common_json_issues (basic_clean s.data)))
      exact Or.inr (Or.inr (by simp [safe_json_parse, hs, h1, hw]))

/-- Claim C7, counterexample: the well-formed input \x7b"a": "\""\x7d
    decodes directly to the object with the one-quote string, but
    safe_json_parse mangles it (basic cleaning unescapes the quote, the
    comma-inserting fix then corrupts the text) and returns the
    placeholder — not the direct decoding. -/
theorem C7_counterexample :
    jsonLoads jsonEscInput.data = some (J.obj [("a", J.str ("\""))]) ∧
    safe_json_parse jsonEscInput J.null = fallbackValue ∧
    fallbackValue ≠ J.obj [("a", J.str ("\""))] := by
  refine ⟨rfl, rfl, ?_⟩
  simp [fallbackValue]

/-- Claim C7, amended: the repair pipeline returns the direct JSON
    decoding for every nonempty well-formed input that the cleaning
    stages leave unchanged (idempotence holds on the fixed points of the
    cleaning, not on all valid input). -/
theorem C7_amended_identity_on_clean_input :
    ∀ (s : String) (d v : J),
      s ≠ "" →
      fix_common_json_issues (basic_clean s.data) = s.data →
      jsonLoads s.data = some v →
      safe_json_parse s d = v := by
  intro s d v hs hfix hparse
  simp [safe_json_parse, hs, hfix, hparse]

/-- Witness for the amended C7 at the input \x7b"a": 1\x7d. -/
theorem C7_amended_witness :
    (jsonOkInput ≠ "" ∧
      fix_common_json_issues (basic_clean jsonOkInput.data) = jsonOkInput.data ∧
      jsonLoads jsonOkInput.data = some (J.obj [("a", J.num ("1"))])) ∧
    safe_json_parse jsonOkInput J.null = J.obj [("a", J.num ("1"))] :=
  ⟨⟨by decide, rfl, rfl⟩,
    C7_amended_identity_on_clean_input jsonOkInput J.null _ (by decide) rfl rfl⟩

/-- Claim C10: validating an empty extraction yields is_valid = false
    together with an empty error list — the 0-ratio guard makes an empty
    collection fail the 80% threshold without any per-record error. -/
theorem C10_empty_extraction_fails_with_no_errors :
    validate_event_extraction [] = (false, []) := by
  norm_num [validate_event_extraction]

/-- Claim C9, counterexample: a record valid in every other respect
    whose core_event has exactly 5 (resp. exactly 500) characters fails
    per-record validation — the source checks len > 5 and len < 500
    strictly, so the claimed inclusive 5–500 bounds are wrong at both
    endpoints. -/
theorem C9_counterexample :
    ("abcde").length = 5 ∧ validate_single_event eventCore5 ≠ [] ∧
    str500.length = 500 ∧ validate_single_event eventCore500 ≠ [] := by
  have hc : ((0 : ℚ) ≤ 1 / 2 ∧ (1 / 2 : ℚ) ≤ 1) := by norm_num
  have hlen5 : ("abcde" : String).length = 5 := rfl
  have hlen500 : str500.length = 500 := by
    have h : (List.replicate 500 'a').length = 500 := by
      rw [List.length_replicate]
    exact h
  have h5 : validate_single_event eventCore5 = [VError.contentFail] := by
    simp [validate_single_event, event_required_fields, has_field, field_validator_errors,
      content_validator_errors, eventCore5, hc, hlen5]
    all_goals norm_num
  have h500 : validate_single_event eventCore500 = [VError.contentFail] := by
    simp [validate_single_event, event_required_fields, has_field, field_validator_errors,
      content_validator_errors, eventCore500, hc, hlen500]
    all_goals norm_num
  exact ⟨hlen5, by simp [h5], hlen500, by simp [h500]⟩

/-- Claim C9, amended: for a record with core_event, impact_level and
    time_horizon present, the enumerations valid and confidence in
    [0,1], per-record validation passes exactly when the core_event
    length is strictly between 5 and 500 (6 to 499 characters; the
    endpoints are excluded). -/
theorem C9_amended_length_bounds_strict :
    ∀ (core iv tv : String) (assets : Option (List String)) (c : ℚ) (ts : Option (Option ℚ)),
      (iv = "low" ∨ iv = "medium" ∨ iv = "high") →
      (tv = "short" ∨ tv = "mid" ∨ tv = "long") →
      0 ≤ c → c ≤ 1 →
      (validate_single_event ⟨some core, some iv, some tv, assets, some c, ts⟩ = [] ↔
        5 < core.length ∧ core.length < 500) := by
  intro core iv tv assets c ts hiv htv hc0 hc1
  have hval : field_validator_errors ⟨some core, some iv, some tv, assets, some c, ts⟩ = [] := by
    rcases hiv with rfl | rfl | rfl <;> rcases htv with rfl | rfl | rfl <;>
      simp [field_validator_errors, hc0, hc1]
  simp [validate_single_event, event_required_fields, has_field, hval,
    content_validator_errors]

/-- Witness for the amended C9: a 6-character core_event with valid
    enumerations and confidence 1/2 satisfies the iff. -/
theorem C9_amended_witness :
    ((0 : ℚ) ≤ 1 / 2 ∧ (1 / 2 : ℚ) ≤ 1) ∧
    (validate_single_event eventCore6 = [] ↔
      5 < ("abcdef" : String).length ∧ ("abcdef" : String).length < 500) :=
  ⟨⟨by norm_num, by norm_num⟩,
    C9_amended_length_bounds_strict ("abcdef") ("high") ("short") (some []) (1 / 2) none
      (Or.inr (Or.inr rfl)) (Or.inl rfl) (by norm_num) (by norm_num)⟩

/-- After a set, the store yields the stored value for that key —
    overwrite case. -/
theorem find_map_overwrite {α : Type} (key : String) (v : α) :
    ∀ (l : List (String × α)), l.any (fun p => p.1 = key) = true →
      (l.map (fun p => if p.1 = key then (key, v) else p)).find? (fun p => p.1 = key) =
        some (key, v) := by
  intro l
  induction l with
  | nil => intro h; simp at h
  | cons hd tl ih =>
    intro h
    by_cases hk : hd.1 = key
    · simp [hk, List.find?]
    · simp only [List.any_cons, hk, decide_eq_true_eq] at h
      simp only [List.map_cons, List.find?, hk, if_neg, decide_eq_true_eq]
      simpa [hk] using ih (by simpa using h)

/-- After a set, the store yields the stored value for that key —
    append case. -/
theorem find_append_new {α : Type} (key : String) (v : α) :
    ∀ (l : List (String × α)), l.any (fun p => p.1 = key) = false →
      (l ++ [(key, v)]).find? (fun p => p.1 = key) = some (key, v) := by
  intro l
  induction l with
  | nil => simp [List.find?]
  | cons hd tl ih =>
    intro h
    simp only [List.any_cons, Bool.or_eq_false_iff, decide_eq_false_iff_not] at h
    simp only [List.cons_append, List.find?, decide_eq_true_eq]
    simpa [h.1] using ih (by simp [h.2])

/-- diskcache semantics of the embedding: reading a key right after
    set(key, v) returns v. -/
theorem cache_lookup_set {β : Type} (st : CacheState β) (key : String) (v : Option β)
    (ttl : Nat) : cache_lookup (cache_set st key v ttl) key = v := by
  unfold cache_lookup cache_set
  cases hany : st.store.any (fun p => p.1 = key) with
  | true => simp [hany, find_map_overwrite key v st.store hany]
  | false => simp [hany, find_append_new key v st.store hany]

/-- Claim C5, counterexample: a compute function that returns Python
    None is invoked by both of two back-to-back get_or_compute calls on
    the same key (the stored None is indistinguishable from a miss), so
    the total is 2 where the claim requires exactly 1. -/
theorem C5_counterexample :
    (get_or_compute st0Unit ("k") noneCompute 60).calls +
      (get_or_compute (get_or_compute st0Unit ("k") noneCompute 60).state ("k")
        noneCompute 60).calls = 2 := by
  rfl

/-- Claim C5, amended: provided the computed value is not None (the
    cache-absent marker), two get_or_compute calls on the same missing
    key within the TTL window run the compute function exactly once —
    the first call computes and returns it, the second returns the
    cached value with no recomputation. -/
theorem C5_amended_compute_once_when_not_none :
    ∀ (β : Type) (st : CacheState β) (key : String) (f : Unit → Option β) (t1 t2 : Nat) (b : β),
      cache_lookup st key = none → f () = some b →
      (get_or_compute st key f t1).calls = 1 ∧
      (get_or_compute st key f t1).value = some b ∧
      (get_or_compute (get_or_compute st key f t1).state key f t2).calls = 0 ∧
      (get_or_compute (get_or_compute st key f t1).state key f t2).value = some b := by
  intro β st key f t1 t2 b hmiss hf
  have h1 : get_or_compute st key f t1 =
      ⟨some b, cache_set { st with misses := st.misses + 1 } key (some b) t1, 1⟩ := by
    simp [get_or_compute, cache_get, hmiss, hf]
  refine ⟨by rw [h1], by rw [h1], ?_, ?_⟩ <;>
    rw [h1] <;> simp [get_or_compute, cache_get, cache_lookup_set]

/-- Witness for the amended C5 with an initially missing key and a
    compute function returning 42. -/
theorem C5_amended_witness :
    (cache_lookup st0Nat ("k") = none ∧ (fun (_ : Unit) => some (42 : ℕ)) () = some 42) ∧
    ((get_or_compute st0Nat ("k") (fun _ => some 42) 60).calls = 1 ∧
      (get_or_compute st0Nat ("k") (fun _ => some 42) 60).value = some 42 ∧
      (get_or_compute (get_or_compute st0Nat ("k") (fun _ => some 42) 60).state ("k")
        (fun _ => some 42) 60).calls = 0 ∧
      (get_or_compute (get_or_compute st0Nat ("k") (fun _ => some 42) 60).state ("k")
        (fun _ => some 42) 60).value = some 42) :=
  ⟨⟨rfl, rfl⟩,
    C5_amended_compute_once_when_not_none ℕ st0Nat ("k") (fun _ => some 42) 60 60 42 rfl rfl⟩

/-- A satisfied membership test forces a truthy container: a dict with
    the key, a list with the member, or a string with a nonempty
    substring is nonempty. -/
theorem pyIn_true_truthy (f : String) (v : J) (hf : f.data ≠ []) (h : pyIn f v = some true) :
    pyTruthy v = true := by
  cases v with
  | null => simp [pyIn] at h
  | bool b => simp [pyIn] at h
  | num l => simp [pyIn] at h
  | str s =>
    cases hs : s.data with
    | nil =>
      simp only [pyIn, strIn, hs, listInfix, Option.some.injEq] at h
      exact absurd (List.isEmpty_iff.mp h) hf
    | cons c t => simp [pyTruthy, hs]
  | arr xs =>
    cases xs with
    | nil => simp [pyIn] at h
    | cons a t => simp [pyTruthy]
  | obj kvs =>
    cases kvs with
    | nil => simp [pyIn] at h
    | cons p t => simp [pyTruthy]

/-- A passing all(... in ...) check passes its first membership test. -/
theorem pyAllIn_head (f : String) (fs : List String) (v : J)
    (h : pyAllIn (f :: fs) v = some true) : pyIn f v = some true := by
  cases hp : pyIn f v with
  | none => simp [pyAllIn, hp] at h
  | some b =>
    cases b with
    | false => simp [pyAllIn, hp] at h
    | true => rfl

/-- Whatever object _parse_single_response accepts is truthy: it passed
    the membership test for "core_events". -/
theorem parse_single_truthy (resp : List Char) (v : J)
    (h : parse_single_response resp = some v) : pyTruthy v = true := by
  unfold parse_single_response at h
  cases hj : jsonLoads (clean_llm_response resp) with
  | none => simp [hj] at h
  | some w =>
    rw [hj] at h
    cases ha : pyAllIn required_output_fields w with
    | none => simp [ha] at h
    | some b =>
      cases b with
      | false => simp [ha] at h
      | true =>
        simp only [ha, Option.some.injEq] at h
        subst h
        exact pyIn_true_truthy ("core_events") w (by decide)
          (pyAllIn_head ("core_events") _ w ha)

/-- The agent's default event is a nonempty dict, hence truthy. -/
theorem extractor_default_truthy (n : NewsItem) :
    pyTruthy (extractor_default_event n) = true := rfl

/-- Each loop iteration of the fallback contributes exactly the
    one-element outcome of its item. -/
theorem process_single_eq (llm : NewsItem → Except Unit String) (n : NewsItem) :
    (match process_single llm n with
     | Except.ok evs => evs
     | Except.error _ => [main_default_event n]) = [single_event_outcome llm n] := by
  unfold process_single single_event_outcome extract_single_event
  cases hl : llm n with
  | error e => simp [Except.map]
  | ok resp =>
    cases hp : parse_single_response resp.data with
    | some v =>
      have ht := parse_single_truthy _ _ hp
      simp [hp, ht, Except.map]
    | none => simp [hp, extractor_default_truthy, Except.map]

/-- Claim C2: for every oracle behavior and every batch, the per-item
    fallback returns exactly the per-item outcomes in order — one event
    per item, so exactly n events for n items and no item lost; an item
    whose single-item call raises contributes the deterministic
    low-confidence placeholder main_default_event, and a parse failure
    contributes the agent's deterministic default. -/
theorem C2_fallback_exactly_one_event_per_item :
    ∀ (llm : NewsItem → Except Unit String) (batch : List NewsItem),
      fallback_single_processing llm batch = batch.map (single_event_outcome llm) ∧
      (fallback_single_processing llm batch).length = batch.length := by
  intro llm batch
  have hmap : fallback_single_processing llm batch = batch.map (single_event_outcome llm) := by
    induction batch with
    | nil => rfl
    | cons n ns ih =>
      simp only [fallback_single_processing, List.map_cons]
      rw [process_single_eq, ih]
      simp
  exact ⟨hmap, by rw [hmap, List.length_map]⟩

/-- The embedded time penalty coincides with the claim's decay table. -/
theorem decay_eq_spec (now : ℚ) (e : Event) :
    calculate_time_penalty now e = time_decay_spec now e.timestamp := by
  unfold calculate_time_penalty time_decay_spec
  cases e.timestamp with
  | none => rfl
  | some o => cases o with
    | none => rfl
    | some t => rfl

/-- The rule bonus is a sum of nonnegative contributions. -/
theorem rules_bonus_nonneg (e : Event) (h : Option (List String)) :
    0 ≤ apply_priority_rules e h := by
  unfold apply_priority_rules priority_rules
  simp only [List.foldl]
  split_ifs <;> norm_num

/-- Every branch of the time penalty is positive. -/
theorem decay_pos (now : ℚ) (e : Event) : 0 < calculate_time_penalty now e := by
  unfold calculate_time_penalty
  cases e.timestamp with
  | none => norm_num
  | some o =>
    cases o with
    | none => norm_num
    | some t =>
      dsimp only
      split_ifs <;> norm_num

/-- Weight-table evaluations (the kernel reduces the literal-list
    lookups). -/
theorem weight_eval :
    (assocGetD impact_scores ("low") 10 = 10 ∧ assocGetD impact_scores ("medium") 10 = 50 ∧
      assocGetD impact_scores ("high") 10 = 100) ∧
    (assocGetD time_scores ("short") 15 = 30 ∧ assocGetD time_scores ("mid") 15 = 20 ∧
      assocGetD time_scores ("long") 15 = 10) ∧
    (impact_weight_spec ("low") = 10 ∧ impact_weight_spec ("medium") = 50 ∧
      impact_weight_spec ("high") = 100) ∧
    (time_weight_spec ("short") = 30 ∧ time_weight_spec ("mid") = 20 ∧
      time_weight_spec ("long") = 10) :=
  ⟨⟨rfl, rfl, rfl⟩, ⟨rfl, rfl, rfl⟩, ⟨rfl, rfl, rfl⟩, ⟨rfl, rfl, rfl⟩⟩

/-- Claim C3: for every event whose impact level and time horizon lie in
    their enumerations and whose confidence is present,
    calculate_priority_score equals
    clamp(((impactWeight + timeWeight) * confidence + rule bonus) * decay,
    0, 100) with the claimed weight tables and decay tiers
    (impact_weight_spec, time_weight_spec and time_decay_spec are
    written from the claim's words). -/
theorem C3_priority_score_formula :
    ∀ (now : ℚ) (e : Event) (holdings : Option (List String)) (iv tv : String) (c : ℚ),
      e.impact_level = some iv → (iv = "low" ∨ iv = "medium" ∨ iv = "high") →
      e.time_horizon = some tv → (tv = "short" ∨ tv = "mid" ∨ tv = "long") →
      e.confidence = some c →
      calculate_priority_score now e holdings =
        max 0 (min 100 (((impact_weight_spec iv + time_weight_spec tv) * c +
          apply_priority_rules e holdings) * time_decay_spec now e.timestamp)) := by
  intro now e holdings iv tv c hi hiv ht htv hc
  have hbase : score_unclamped now e holdings =
      ((impact_weight_spec iv + time_weight_spec tv) * c + apply_priority_rules e holdings) *
        time_decay_spec now e.timestamp := by
    rw [show score_unclamped now e holdings =
        ((0 + assocGetD impact_scores (e.impact_level.getD ("low")) 10 +
          assocGetD time_scores (e.time_horizon.getD ("mid")) 15) * e.confidence.getD (1 / 2) +
          apply_priority_rules e holdings) * calculate_time_penalty now e from rfl,
      decay_eq_spec, hi, ht, hc]
    rcases hiv with rfl | rfl | rfl <;> rcases htv with rfl | rfl | rfl <;>
      · simp only [Option.getD_some, weight_eval.1.1, weight_eval.1.2.1, weight_eval.1.2.2,
          weight_eval.2.1.1, weight_eval.2.1.2.1, weight_eval.2.1.2.2,
          weight_eval.2.2.1.1, weight_eval.2.2.1.2.1, weight_eval.2.2.1.2.2,
          weight_eval.2.2.2.1, weight_eval.2.2.2.2.1, weight_eval.2.2.2.2.2]
        ring
  rw [show calculate_priority_score now e holdings =
      max 0 (min 100 (score_unclamped now e holdings)) from rfl, hbase]

/-- Witness for C3 at a concrete high/short event with confidence 3/4. -/
theorem C3_witness :
    (eventC3w.impact_level = some ("high") ∧ eventC3w.time_horizon = some ("short") ∧
      eventC3w.confidence = some (3 / 4)) ∧
    calculate_priority_score 0 eventC3w none =
      max 0 (min 100 (((impact_weight_spec ("high") + time_weight_spec ("short")) * (3 / 4) +
        apply_priority_rules eventC3w none) * time_decay_spec 0 eventC3w.timestamp)) :=
  ⟨⟨rfl, rfl, rfl⟩,
    C3_priority_score_formula 0 eventC3w none ("high") ("short") (3 / 4) rfl
      (Or.inr (Or.inr rfl)) rfl (Or.inl rfl) rfl⟩

/-- Claim C6, counterexample: two events identical except confidence
    (0.9 vs 0.2) whose rule bonuses saturate the clamp — high impact,
    short horizon, a core event matching both the crisis and the policy
    rules — both score exactly 100, so the 0.9 event does not score
    strictly higher. -/
theorem C6_counterexample :
    calculate_priority_score 0 eventSat09 none = 100 ∧
    calculate_priority_score 0 eventSat02 none = 100 ∧
    ¬(calculate_priority_score 0 eventSat02 none <
      calculate_priority_score 0 eventSat09 none) := by
  have h9 : calculate_priority_score 0 eventSat09 none = 100 := by
    rw [show calculate_priority_score 0 eventSat09 none =
        max 0 (min 100 (((0 + 100 + 30) * (9 / 10) + (0 + 100 + 95 + 85)) * 1)) from rfl]
    rw [show ((0 + 100 + 30) * (9 / 10) + ((0 : ℚ) + 100 + 95 + 85)) * 1 = 397 by norm_num]
    rw [min_eq_left (by norm_num), max_eq_right (by norm_num)]
  have h2 : calculate_priority_score 0 eventSat02 none = 100 := by
    rw [show calculate_priority_score 0 eventSat02 none =
        max 0 (min 100 (((0 + 100 + 30) * (1 / 5) + (0 + 100 + 95 + 85)) * 1)) from rfl]
    rw [show ((0 + 100 + 30) * (1 / 5) + ((0 : ℚ) + 100 + 95 + 85)) * 1 = 306 by norm_num]
    rw [min_eq_left (by norm_num), max_eq_right (by norm_num)]
  exact ⟨h9, h2, by rw [h9, h2]; exact lt_irrefl 100⟩

/-- Arithmetic of the clamp: with positive base, nonnegative bonus and
    positive decay, the 0.9-confidence score dominates the 0.2 one, and
    strictly so whenever the smaller pre-clamp score is below 100. -/
theorem conf_clamp_compare (B R D : ℚ) (hB : 0 < B) (hR : 0 ≤ R) (hD : 0 < D) :
    max 0 (min 100 ((B * (1 / 5) + R) * D)) ≤ max 0 (min 100 ((B * (9 / 10) + R) * D)) ∧
    ((B * (1 / 5) + R) * D < 100 →
      max 0 (min 100 ((B * (1 / 5) + R) * D)) < max 0 (min 100 ((B * (9 / 10) + R) * D))) := by
  have hle : (B * (1 / 5) + R) * D ≤ (B * (9 / 10) + R) * D := by nlinarith
  refine ⟨max_le_max le_rfl (min_le_min le_rfl hle), fun hlt => ?_⟩
  have hnn : 0 ≤ (B * (1 / 5) + R) * D := by positivity
  have h2 : max 0 (min 100 ((B * (1 / 5) + R) * D)) = (B * (1 / 5) + R) * D := by
    rw [min_eq_right hlt.le, max_eq_right hnn]
  by_cases hbig : 100 ≤ (B * (9 / 10) + R) * D
  · rw [h2, min_eq_left hbig, max_eq_right (by norm_num : (0 : ℚ) ≤ 100)]
    exact hlt
  · push_neg at hbig
    have hstrict : (B * (1 / 5) + R) * D < (B * (9 / 10) + R) * D := by nlinarith
    rw [h2, min_eq_right hbig.le, max_eq_right (le_trans hnn hstrict.le)]
    exact hstrict

/-- Claim C6, amended: for two events identical except confidence (0.9
    vs 0.2) with valid enumerated fields, the 0.9-confidence event
    scores at least as high, and strictly higher exactly under the
    proviso that the 0.2-confidence event's pre-clamp score is below
    100 (at the clamp both scores saturate at 100 and tie, as the
    counterexample shows). -/
theorem C6_amended_higher_confidence_not_lower :
    ∀ (now : ℚ) (core : Option String) (iv tv : String) (assets : Option (List String))
      (ts : Option (Option ℚ)) (holdings : Option (List String)),
      (iv = "low" ∨ iv = "medium" ∨ iv = "high") →
      (tv = "short" ∨ tv = "mid" ∨ tv = "long") →
      calculate_priority_score now ⟨core, some iv, some tv, assets, some (1 / 5), ts⟩ holdings ≤
        calculate_priority_score now ⟨core, some iv, some tv, assets, some (9 / 10), ts⟩
          holdings ∧
      (score_unclamped now ⟨core, some iv, some tv, assets, some (1 / 5), ts⟩ holdings < 100 →
        calculate_priority_score now ⟨core, some iv, some tv, assets, some (1 / 5), ts⟩
            holdings <
          calculate_priority_score now ⟨core, some iv, some tv, assets, some (9 / 10), ts⟩
            holdings) := by
  intro now core iv tv assets ts holdings hiv htv
  have hB : 0 < 0 + assocGetD impact_scores iv 10 + assocGetD time_scores tv 15 := by
    rcases hiv with rfl | rfl | rfl <;> rcases htv with rfl | rfl | rfl <;>
      · simp only [weight_eval.1.1, weight_eval.1.2.1, weight_eval.1.2.2,
          weight_eval.2.1.1, weight_eval.2.1.2.1, weight_eval.2.1.2.2]
        norm_num
  have hR := rules_bonus_nonneg (⟨core, some iv, some tv, assets, some (1 / 5), ts⟩ : Event)
    holdings
  have hD := decay_pos now (⟨core, some iv, some tv, assets, some (1 / 5), ts⟩ : Event)
  have hcmp := conf_clamp_compare
    (0 + assocGetD impact_scores iv 10 + assocGetD time_scores tv 15)
    (apply_priority_rules (⟨core, some iv, some tv, assets, some (1 / 5), ts⟩ : Event) holdings)
    (calculate_time_penalty now (⟨core, some iv, some tv, assets, some (1 / 5), ts⟩ : Event))
    hB hR hD
  exact hcmp

/-- Witness for the amended C6: a quiet low/long event far from the
    clamp, where the strict comparison holds. -/
theorem C6_amended_witness :
    (score_unclamped 0 (eventQuiet (1 / 5)) none < 100) ∧
    (calculate_priority_score 0 (eventQuiet (1 / 5)) none ≤
      calculate_priority_score 0 (eventQuiet (9 / 10)) none) ∧
    (calculate_priority_score 0 (eventQuiet (1 / 5)) none <
      calculate_priority_score 0 (eventQuiet (9 / 10)) none) := by
  have hlt : score_unclamped 0 (eventQuiet (1 / 5)) none < 100 := by
    rw [show score_unclamped 0 (eventQuiet (1 / 5)) none =
        ((0 + 10 + 10) * (1 / 5) + 0) * 1 from rfl]
    norm_num
  have h := C6_amended_higher_confidence_not_lower 0 (some ("abc")) ("low") ("long")
    (some []) none none (Or.inl rfl) (Or.inr (Or.inr rfl))
  exact ⟨hlt, h.1, h.2 hlt⟩

/-- Duplication against a kept set, characterized. -/
theorem dup_of_iff (hashFn : String → String) (n : NewsItem) (kept : List NewsItem) :
    dup_of hashFn n kept = true ↔
      ((∃ k ∈ kept, id_truthy k.id = true ∧ id_truthy n.id = true ∧
        k.id.getD ("") = n.id.getD ("")) ∨
       (∃ k ∈ kept, hashFn (k.content.getD ("")) = hashFn (n.content.getD ("")))) := by
  simp only [dup_of, pair_dup, List.any_eq_true, Bool.or_eq_true, Bool.and_eq_true,
    beq_iff_eq]
  constructor
  · rintro ⟨k, hk, ⟨⟨h1, h2⟩, h3⟩ | h⟩
    · exact Or.inl ⟨k, hk, h1, h2, h3⟩
    · exact Or.inr ⟨k, hk, h⟩
  · rintro (⟨k, hk, h1, h2, h3⟩ | ⟨k, hk, h⟩)
    · exact ⟨k, hk, Or.inl ⟨⟨h1, h2⟩, h3⟩⟩
    · exact ⟨k, hk, Or.inr h⟩

/-- The recorded id list contains s exactly when some kept item declared
    it (truthy). -/
theorem contains_kept_ids_iff (kept : List NewsItem) (s : String) :
    (kept_ids kept).contains s = true ↔
      ∃ k ∈ kept, id_truthy k.id = true ∧ k.id.getD ("") = s := by
  simp only [kept_ids, List.contains, List.elem_iff, List.mem_filterMap,
    Option.ite_none_right_eq_some, Option.some.injEq]

/-- The recorded hash list contains h exactly when some kept item hashes
    to it. -/
theorem contains_kept_hashes_iff (hashFn : String → String) (kept : List NewsItem)
    (s : String) :
    (kept_hashes hashFn kept).contains s = true ↔
      ∃ k ∈ kept, hashFn (k.content.getD ("")) = s := by
  simp only [kept_hashes, List.contains, List.elem_iff, List.mem_map]

/-- The loop's pair of membership tests, on bookkeeping read off the
    kept list, equals duplication against the kept list. -/
theorem code_cond_eq (hashFn : String → String) (n : NewsItem) (kept : List NewsItem) :
    ((id_truthy n.id && (kept_ids kept).contains (n.id.getD (""))) ||
      (kept_hashes hashFn kept).contains (hashFn (n.content.getD ("")))) =
      dup_of hashFn n kept := by
  rw [Bool.eq_iff_iff]
  simp only [Bool.or_eq_true, Bool.and_eq_true]
  rw [contains_kept_ids_iff, contains_kept_hashes_iff, dup_of_iff]
  constructor
  · rintro (⟨h1, k, hk, h2, h3⟩ | h)
    · exact Or.inl ⟨k, hk, h2, h1, h3⟩
    · exact Or.inr h
  · rintro (⟨k, hk, h2, h1, h3⟩ | h)
    · exact Or.inl ⟨h1, k, hk, h2, h3⟩
    · exact Or.inr h

/-- Appending a kept item extends the recorded ids exactly as the loop
    does. -/
theorem kept_ids_append (kept : List NewsItem) (n : NewsItem) :
    kept_ids (kept ++ [n]) =
      (if id_truthy n.id then kept_ids kept ++ [n.id.getD ("")] else kept_ids kept) := by
  simp only [kept_ids, List.filterMap_append, List.filterMap]
  by_cases h : id_truthy n.id = true
  · simp [h]
  · simp [h]

/-- Appending a kept item extends the recorded hashes exactly as the
    loop does. -/
theorem kept_hashes_append (hashFn : String → String) (kept : List NewsItem) (n : NewsItem) :
    kept_hashes hashFn (kept ++ [n]) =
      kept_hashes hashFn kept ++ [hashFn (n.content.getD (""))] := by
  simp [kept_hashes]

/-- The loop, run from bookkeeping consistent with its kept accumulator
    and below the target, keeps exactly the early-terminated prefix of
    the claim's first-wins filter. -/
theorem loop_kept_eq (hashFn : String → String) (size : Nat) :
    ∀ (l kept : List NewsItem) (scanned dups : Nat), kept.length < size →
      (load_news_batch_loop hashFn size (kept_ids kept) (kept_hashes hashFn kept) kept
        scanned dups l).kept =
        kept ++ (dedup_filter_aux hashFn kept l).take (size - kept.length) := by
  intro l
  induction l with
  | nil => intro kept scanned dups _; simp [load_news_batch_loop, dedup_filter_aux]
  | cons n ns ih =>
    intro kept scanned dups hlen
    by_cases hdup : dup_of hashFn n kept = true
    · have hfil : dedup_filter_aux hashFn kept (n :: ns) = dedup_filter_aux hashFn kept ns := by
        simp [dedup_filter_aux, hdup]
      cases hb1 : (id_truthy n.id && (kept_ids kept).contains (n.id.getD (""))) with
      | true =>
        simp only [load_news_batch_loop, hb1, if_true]
        rw [ih kept (scanned + 1) (dups + 1) hlen, hfil]
      | false =>
        have hb2 : (kept_hashes hashFn kept).contains (hashFn (n.content.getD (""))) = true := by
          have := code_cond_eq hashFn n kept
          rw [hb1, hdup] at this
          simpa using this
        simp only [load_news_batch_loop, hb1, hb2, Bool.false_eq_true, if_false, if_true]
        rw [ih kept (scanned + 1) (dups + 1) hlen, hfil]
    · have hcode := code_cond_eq hashFn n kept
      rw [(Bool.eq_false_iff.mpr hdup :)] at hcode
      have hb1 : (id_truthy n.id && (kept_ids kept).contains (n.id.getD (""))) = false :=
        (Bool.or_eq_false_iff.mp hcode).1
      have hb2 : (kept_hashes hashFn kept).contains (hashFn (n.content.getD (""))) = false :=
        (Bool.or_eq_false_iff.mp hcode).2
      have hfil : dedup_filter_aux hashFn kept (n :: ns) =
          n :: dedup_filter_aux hashFn (kept ++ [n]) ns := by
        simp [dedup_filter_aux, hdup]
      have hids : (if id_truthy n.id then kept_ids kept ++ [n.id.getD ("")]
          else kept_ids kept) = kept_ids (kept ++ [n]) := (kept_ids_append kept n).symm
      have hhashes : kept_hashes hashFn kept ++ [hashFn (n.content.getD (""))] =
          kept_hashes hashFn (kept ++ [n]) := (kept_hashes_append hashFn kept n).symm
      by_cases hstop : size ≤ (kept ++ [n]).length
      · have hsz : size - kept.length = 1 := by
          simp only [List.length_append, List.length_cons, List.length_nil] at hstop ⊢
          omega
        simp only [load_news_batch_loop, hb1, hb2, Bool.false_eq_true, if_false, hstop,
          if_true, hfil, hsz, List.take_succ_cons, List.take_zero]
      · have hlen' : (kept ++ [n]).length < size := by omega
        have hsz : size - kept.length = (size - (kept ++ [n]).length) + 1 := by
          simp only [List.length_append, List.length_cons, List.length_nil] at hlen' ⊢
          omega
        simp only [load_news_batch_loop, hb1, hb2, Bool.false_eq_true, if_false, hstop,
          hids, hhashes]
        rw [ih (kept ++ [n]) (scanned + 1) dups hlen', hfil, hsz, List.take_succ_cons]
        simp

/-- Count bookkeeping of the loop: new duplicates plus newly kept items
    equal newly scanned items. -/
theorem loop_counts (hashFn : String → String) (size : Nat) :
    ∀ (l : List NewsItem) (ids hashes : List String) (kept : List NewsItem)
      (scanned dups : Nat),
      (load_news_batch_loop hashFn size ids hashes kept scanned dups l).dups +
        (load_news_batch_loop hashFn size ids hashes kept scanned dups l).kept.length +
        scanned =
      (load_news_batch_loop hashFn size ids hashes kept scanned dups l).scanned + dups +
        kept.length := by
  intro l
  induction l with
  | nil => intro ids hashes kept scanned dups; simp [load_news_batch_loop]; omega
  | cons n ns ih =>
    intro ids hashes kept scanned dups
    cases hb1 : (id_truthy n.id && ids.contains (n.id.getD (""))) with
    | true =>
      simp only [load_news_batch_loop, hb1, if_true]
      have := ih ids hashes kept (scanned + 1) (dups + 1)
      omega
    | false =>
      cases hb2 : hashes.contains (hashFn (n.content.getD (""))) with
      | true =>
        simp only [load_news_batch_loop, hb1, hb2, Bool.false_eq_true, if_false, if_true]
        have := ih ids hashes kept (scanned + 1) (dups + 1)
        omega
      | false =>
        by_cases hstop : size ≤ (kept ++ [n]).length
        · simp only [load_news_batch_loop, hb1, hb2, Bool.false_eq_true, if_false, hstop,
            if_true]
          simp only [List.length_append, List.length_cons, List.length_nil]
          omega
        · simp only [load_news_batch_loop, hb1, hb2, Bool.false_eq_true, if_false, hstop]
          have := ih (if id_truthy n.id then ids ++ [n.id.getD ("")] else ids)
            (hashes ++ [hashFn (n.content.getD (""))]) (kept ++ [n]) (scanned + 1) dups
          simp only [List.length_append, List.length_cons, List.length_nil] at this ⊢
          omega

/-- Every item the filter emits duplicates nothing in the accumulator it
    started from. -/
theorem filter_aux_mem_not_dup (hashFn : String → String) :
    ∀ (l kept : List NewsItem) (y : NewsItem),
      y ∈ dedup_filter_aux hashFn kept l → ∀ k ∈ kept, pair_dup hashFn k y = false := by
  intro l
  induction l with
  | nil => intro kept y hy; simp [dedup_filter_aux] at hy
  | cons n ns ih =>
    intro kept y hy k hk
    by_cases hd : dup_of hashFn n kept = true
    · rw [dedup_filter_aux, if_pos hd] at hy
      exact ih kept y hy k hk
    · rw [dedup_filter_aux, if_neg hd] at hy
      rcases List.mem_cons.mp hy with rfl | hy'
      · have hfalse : dup_of hashFn y kept = false := Bool.eq_false_iff.mpr hd
        simp only [dup_of, List.any_eq_false] at hfalse
        exact Bool.eq_false_iff.mpr (hfalse k hk)
      · exact ih (kept ++ [n]) y hy' k (by simp [hk])

/-- The filter's output is pairwise duplicate-free. -/
theorem filter_aux_pairwise (hashFn : String → String) :
    ∀ (l kept : List NewsItem),
      List.Pairwise (fun a b => pair_dup hashFn a b = false) (dedup_filter_aux hashFn kept l) := by
  intro l
  induction l with
  | nil => intro kept; simp [dedup_filter_aux]
  | cons n ns ih =>
    intro kept
    by_cases hd : dup_of hashFn n kept = true
    · rw [dedup_filter_aux, if_pos hd]
      exact ih kept
    · rw [dedup_filter_aux, if_neg hd]
      refine List.Pairwise.cons ?_ (ih (kept ++ [n]))
      intro y hy
      exact filter_aux_mem_not_dup hashFn ns (kept ++ [n]) y hy n (by simp)

/-- Claim C4, counterexample: with target count N = 0 the loop still
    keeps the first unique item before checking the bound — it does not
    stop as soon as 0 unique items are collected. -/
theorem C4_counterexample :
    (load_news_batch (fun s => s) 0 [newsA]).kept.length = 1 ∧
    ¬((load_news_batch (fun s => s) 0 [newsA]).kept.length ≤ 0) := by
  have h1 : (load_news_batch (fun s => s) 0 [newsA]).kept.length = 1 := rfl
  exact ⟨h1, by omega⟩

/-- Claim C4, amended: for every hash function, every input and every
    target count N ≥ 1 (for N = 0 one item is still kept, as the
    counterexample shows), the loader keeps exactly the first N items of
    the claim's first-wins duplicate filter — an item is discarded
    exactly when its truthy id or its content fingerprint repeats an
    earlier kept item's — duplicate-count + kept-count = scan-count, at
    most N items are kept, and the kept items are pairwise
    non-duplicates (each distinct identity exactly once). -/
theorem C4_amended_dedup_for_positive_target :
    ∀ (hashFn : String → String) (size : Nat) (input : List NewsItem), 1 ≤ size →
      (load_news_batch hashFn size input).kept = (dedup_filter hashFn input).take size ∧
      (load_news_batch hashFn size input).dups +
        (load_news_batch hashFn size input).kept.length =
        (load_news_batch hashFn size input).scanned ∧
      (load_news_batch hashFn size input).kept.length ≤ size ∧
      List.Pairwise (fun a b => pair_dup hashFn a b = false)
        (load_news_batch hashFn size input).kept := by
  intro hashFn size input hsz
  have hkept : (load_news_batch hashFn size input).kept =
      (dedup_filter hashFn input).take size := by
    have h := loop_kept_eq hashFn size input [] 0 0 (by simpa using hsz)
    simpa [load_news_batch, dedup_filter, kept_ids, kept_hashes] using h
  refine ⟨hkept, ?_, ?_, ?_⟩
  · have h := loop_counts hashFn size input [] [] [] 0 0
    simpa [load_news_batch] using h
  · rw [hkept]
    simp [List.length_take]
  · rw [hkept]
    exact List.Pairwise.sublist (List.take_sublist size _) (filter_aux_pairwise hashFn input [])

/-- Witness for the amended C4 on a four-item input with one content
    duplicate and one id duplicate, target 2. -/
theorem C4_amended_witness :
    (1 ≤ 2) ∧
    ((load_news_batch id 2 newsListC4).kept = (dedup_filter id newsListC4).take 2 ∧
      (load_news_batch id 2 newsListC4).dups + (load_news_batch id 2 newsListC4).kept.length =
        (load_news_batch id 2 newsListC4).scanned ∧
      (load_news_batch id 2 newsListC4).kept.length ≤ 2 ∧
      List.Pairwise (fun a b => pair_dup id a b = false)
        (load_news_batch id 2 newsListC4).kept) :=
  ⟨by omega, C4_amended_dedup_for_positive_target id 2 newsListC4 (by omega)⟩

/-- On a sane element the annotation body raises nothing and returns the
    matched-by-declared-index annotation. -/
theorem annotate_one_sane (news : List NewsItem) (ev : J) (h : sane_event ev = true) :
    annotate_one news ev = Except.ok (annotate_ok news ev) := by
  cases ev with
  | null => simp [sane_event] at h
  | bool b => simp [sane_event] at h
  | num l => simp [sane_event] at h
  | str s => simp [sane_event] at h
  | arr xs => simp [sane_event] at h
  | obj kvs =>
    have h' : (match pyDictGet kvs ("news_index") with
        | none => true
        | some (J.num lex) => isIntLex lex
        | some _ => false) = true := h
    have hlex : ∃ lex, (pyDictGet kvs ("news_index")).getD (J.num ("1")) = J.num lex ∧
        isIntLex lex = true := by
      cases hg : pyDictGet kvs ("news_index") with
      | none => exact ⟨"1", rfl, rfl⟩
      | some v =>
        rw [hg] at h'
        cases v with
        | num lex => exact ⟨lex, rfl, h'⟩
        | null => exact Bool.noConfusion h'
        | bool b => exact Bool.noConfusion h'
        | str s => exact Bool.noConfusion h'
        | arr xs => exact Bool.noConfusion h'
        | obj o => exact Bool.noConfusion h'
    rcases hlex with ⟨lex, hn, hint⟩
    simp only [annotate_one, annotate_ok, hn, hint, if_true]
    by_cases hidx : 0 ≤ lexToInt lex - 1 ∧ lexToInt lex - 1 < (news.length : Int)
    · have hlt : (lexToInt lex - 1).toNat < news.length := by omega
      rw [if_pos hidx, if_pos hidx, List.get?_eq_get hlt]
    · rw [if_neg hidx, if_neg hidx]

/-- The annotation loop over sane elements succeeds and returns the
    pointwise annotation. -/
theorem annotate_batch_sane (news : List NewsItem) :
    ∀ (evs : List J), (∀ ev ∈ evs, sane_event ev = true) →
      annotate_batch_events evs news = Except.ok (evs.map (annotate_ok news)) := by
  intro evs
  induction evs with
  | nil => intro _; rfl
  | cons e t ih =>
    intro h
    unfold annotate_batch_events at ih ⊢
    rw [List.mapM_cons, annotate_one_sane news e (h e (by simp)),
      ih (fun ev hv => h ev (by simp [hv]))]
    rfl

/-- Claim C8, counterexample: a parsable response carrying two elements
    for a one-item batch reconciles without error and returns both
    elements — the element with news_index 1 annotated with the item's
    provenance, the extra element with news_index 2 kept untouched, not
    ignored. -/
theorem C8_counterexample :
    parse_batch_response batchResp2 [newsA] =
      Except.ok
        [J.obj [("news_index", J.num ("1")), ("source_file", J.null), ("source_line", J.null),
          ("original_timestamp", J.null), ("original_category", J.null)],
         J.obj [("news_index", J.num ("2"))]] ∧
    [newsA].length = 1 := by
  exact ⟨rfl, rfl⟩

/-- Claim C8, amended: whenever the cleaned response has a brace span
    that decodes to an object whose batch_events is a list of sane
    elements (dicts whose news_index, if present, is a JSON integer),
    reconciliation succeeds with no error and no per-item fallback even
    when the element count differs from the item count — nothing in the
    hypotheses ties evs.length to news.length; elements are matched to
    items solely by their declared news_index, items with no matching
    element receive no event, and extra or out-of-range elements are
    retained in the output unannotated rather than ignored. -/
theorem C8_amended_extras_kept_not_ignored :
    ∀ (response : String) (news : List NewsItem) (kvs : List (String × J)) (evs : List J)
      (s e : Nat),
      pyFind cOB (clean_batch_response response) = some s →
      pyRfind cCB (clean_batch_response response) = some e →
      jsonLoads (pySlice (clean_batch_response response) s (e + 1)) = some (J.obj kvs) →
      (pyDictGet kvs ("batch_events")).getD (J.arr []) = J.arr evs →
      (∀ ev ∈ evs, sane_event ev = true) →
      parse_batch_response response news = Except.ok (evs.map (annotate_ok news)) ∧
      (evs.map (annotate_ok news)).length = evs.length := by
  intro response news kvs evs s e hf hr hj hb hsane
  refine ⟨?_, List.length_map _ _⟩
  unfold parse_batch_response parse_batch_response_body
  rw [hf, hr]
  simp only [hj, hb]
  exact annotate_batch_sane news evs hsane

/-- Witness for the amended C8 at the two-element response over a
    one-item batch: every hypothesis holds concretely and the output
    retains both elements. -/
theorem C8_amended_witness :
    (pyFind cOB (clean_batch_response batchResp2) = some 0 ∧
      pyRfind cCB (clean_batch_response batchResp2) = some 55 ∧
      (pyDictGet [("batch_events",
        J.arr [J.obj [("news_index", J.num ("1"))], J.obj [("news_index", J.num ("2"))]])]
        ("batch_events")).getD (J.arr []) =
        J.arr [J.obj [("news_index", J.num ("1"))], J.obj [("news_index", J.num ("2"))]]) ∧
    (parse_batch_response batchResp2 [newsA] =
      Except.ok
        ([J.obj [("news_index", J.num ("1"))],
          J.obj [("news_index", J.num ("2"))]].map (annotate_ok [newsA])) ∧
      ([J.obj [("news_index", J.num ("1"))],
        J.obj [("news_index", J.num ("2"))]].map (annotate_ok [newsA])).length =
        [J.obj [("news_index", J.num ("1"))], J.obj [("news_index", J.num ("2"))]].length) :=
  ⟨⟨rfl, rfl, rfl⟩,
    C8_amended_extras_kept_not_ignored batchResp2 [newsA]
      [("batch_events",
        J.arr [J.obj [("news_index", J.num ("1"))], J.obj [("news_index", J.num ("2"))]])]
      [J.obj [("news_index", J.num ("1"))], J.obj [("news_index", J.num ("2"))]] 0 55
      rfl rfl rfl rfl (by decide)⟩

end InvestAI
